import Mathlib

/-!
Verification development for the GrafanaConnect data-source plugin
(query dispatch and response normalization engine).

The Go source is shallowly embedded: Go strings are Lean `String`s
(or `List Char` where character-level reasoning is needed), Go
`time.Time` values are `Int` nanoseconds since the Unix epoch,
JSON-decoded `interface{}` values are the inductive `Jvalue`,
`float64` is modelled by `Rat` (the claims checked here never depend
on floating-point rounding), and `http.Header` is an association
list keyed by canonical MIME header keys.
-/

set_option linter.unusedVariables false

namespace GrafanaConnect

/-! ## Go `time.Time` model

A `time.Time` is modelled by its instant as nanoseconds since the Unix
epoch.  The zero value `time.Time\x7b\x7d` is 0001-01-01T00:00:00 UTC, which
is -62135596800 seconds before the epoch. -/

abbrev GoTime := Int

/-- The Go zero `time.Time` (0001-01-01T00:00:00 UTC), in Unix nanoseconds. -/
def goTimeZero : GoTime := -62135596800 * 1000000000

/-- `time.Unix(sec, nsec)`. -/
def timeUnix (sec nsec : Int) : GoTime := sec * 1000000000 + nsec

/-- `t.Unix()`: whole seconds since the epoch (floor, since the
nanosecond remainder of a `time.Time` is non-negative). -/
def goUnix (t : GoTime) : Int := Int.ediv t 1000000000

/-- `t.UnixNano()`. -/
def goUnixNano (t : GoTime) : Int := t

/-! ## JSON values as decoded by `encoding/json` into `interface{}`

`json.Unmarshal` into `interface{}` produces only `nil`, `bool`,
`float64`, `string`, `[]interface{}` and `map[string]interface{}`.
A Go map is modelled as an association list (its keys are distinct;
Go's randomized iteration order is modelled by the list order). -/

inductive Jvalue where
  | jnull : Jvalue
  | jbool : Bool → Jvalue
  | jnum : Rat → Jvalue
  | jstr : String → Jvalue
  | jarr : List Jvalue → Jvalue
  | jobj : List (String × Jvalue) → Jvalue
deriving Inhabited

/-! ## HTTP headers (`net/http.Header`)

`Header.Set` and `Header.Get` canonicalize the key with
`textproto.CanonicalMIMEHeaderKey`: if every byte is a valid token
byte, the first letter and every letter following a hyphen is
upper-cased and the rest lower-cased; otherwise the key is left as is. -/

/-- Valid RFC 7230 token code point (letters, digits and the specials
accepted by `textproto.validHeaderFieldByte`). -/
def isTokenCodePoint (n : Nat) : Bool :=
  (65 ≤ n && n ≤ 90) || (97 ≤ n && n ≤ 122) || (48 ≤ n && n ≤ 57) ||
  (n ∈ [33, 35, 36, 37, 38, 39, 42, 43, 45, 46, 94, 95, 96, 124, 126])

/-- Case-normalization pass of `CanonicalMIMEHeaderKey`: upper-case at
the start and after each hyphen, lower-case elsewhere. -/
def canonicalChars : Bool → List Char → List Char
  | _, [] => []
  | upper, c :: rest =>
    (if upper then c.toUpper else c.toLower) :: canonicalChars (c = '-') rest

/-- `textproto.CanonicalMIMEHeaderKey`. -/
def canonicalKey (s : String) : String :=
  if s.data.all (fun c => isTokenCodePoint c.toNat) then
    ⟨canonicalChars true s.data⟩
  else s

/-- Association-list insert-or-replace, modelling Go map assignment. -/
def mapSet {β : Type} : List (String × β) → String → β → List (String × β)
  | [], k, v => [(k, v)]
  | (k', v') :: rest, k, v =>
    if k' = k then (k, v) :: rest else (k', v') :: mapSet rest k v

abbrev Headers := List (String × String)

/-- `req.Header.Set(k, v)`. -/
def headerSet (h : Headers) (k v : String) : Headers :=
  mapSet h (canonicalKey k) v

/-- `req.Header.Get(k)`: empty string when the header is absent. -/
def headerGet (h : Headers) (k : String) : String :=
  (h.lookup (canonicalKey k)).getD ""

/-! ## Base64 (for `req.SetBasicAuth`) -/

def base64Alphabet : String :=
  "ABCDEFGHIJKLMNOPQRSTUVWXYZabcdefghijklmnopqrstuvwxyz0123456789+/"

def b64Digit (n : Nat) : Char := base64Alphabet.data.getD n 'A'

/-- Standard base64 with padding over a byte list. -/
def base64Chars : List Nat → List Char
  | b1 :: b2 :: b3 :: rest =>
    let w := b1 * 65536 + b2 * 256 + b3
    b64Digit (w / 262144) :: b64Digit (w / 4096 % 64) ::
      b64Digit (w / 64 % 64) :: b64Digit (w % 64) :: base64Chars rest
  | [b1, b2] =>
    let w := b1 * 65536 + b2 * 256
    [b64Digit (w / 262144), b64Digit (w / 4096 % 64), b64Digit (w / 64 % 64), '=']
  | [b1] =>
    let w := b1 * 65536
    [b64Digit (w / 262144), b64Digit (w / 4096 % 64), '=', '=']
  | [] => []

/-- UTF-8 encoding of one code point. -/
def utf8EncodeChar (n : Nat) : List Nat :=
  if n < 128 then [n]
  else if n < 2048 then [192 + n / 64, 128 + n % 64]
  else if n < 65536 then [224 + n / 4096, 128 + n / 64 % 64, 128 + n % 64]
  else [240 + n / 262144, 128 + n / 4096 % 64, 128 + n / 64 % 64, 128 + n % 64]

def utf8Bytes (s : String) : List Nat :=
  s.data.flatMap (fun c => utf8EncodeChar c.toNat)

def base64Encode (s : String) : String :=
  ⟨base64Chars (utf8Bytes s)⟩

/-- `req.SetBasicAuth(user, pass)`: sets `Authorization` to the
standard basic-auth encoding. -/
def setBasicAuth (h : Headers) (user pass : String) : Headers :=
  headerSet h "Authorization" ("Basic " ++ base64Encode (user ++ ":" ++ pass))

/-! ## Data-source configuration (`models.DataSourceConfig`) -/

structure DataSourceConfig where
  PrometheusURL : String := ""
  LokiURL : String := ""
  RESTURL : String := ""
  APIKey : String := ""
  BasicAuthUser : String := ""
  BasicAuthPass : String := ""
  BearerToken : String := ""
  RESTHeaders : List (String × String) := []
deriving DecidableEq, Inhabited

/-! ## Credential injector (`addAuthHeaders`)

The three protocol handlers (`PrometheusHandler.addAuthHeaders`,
`LokiHandler.addAuthHeaders`, `RESTAPIHandler.addAuthHeaders`) contain
this identical function body. -/

def addAuthHeaders (config : DataSourceConfig) (req : Headers) : Headers :=
  if config.BearerToken ≠ "" then
    headerSet req "Authorization" ("Bearer " ++ config.BearerToken)
  else if config.APIKey ≠ "" then
    headerSet req "X-API-Key" config.APIKey
  else if config.BasicAuthUser ≠ "" ∧ config.BasicAuthPass ≠ "" then
    setBasicAuth req config.BasicAuthUser config.BasicAuthPass
  else req

/-- `pre.isPrefixOf s.data` as a statement about whole strings. -/
def strStarts (s pre : String) : Bool := pre.data.isPrefixOf s.data

/-- The request carries a bearer-token scheme. -/
def usesBearer (h : Headers) : Bool := strStarts (headerGet h "Authorization") "Bearer "

/-- The request carries an API-key scheme. -/
def usesAPIKey (h : Headers) : Bool := headerGet h "X-API-Key" ≠ ""

/-- The request carries a basic-auth scheme. -/
def usesBasic (h : Headers) : Bool := strStarts (headerGet h "Authorization") "Basic "

/-! ## REST URL composition (`RESTAPIHandler.executeQuery`)

Go strings are modelled as `List Char` here so that the trimming can be
reasoned about character by character. -/

/-- `strings.TrimSuffix(s, suffix)`: removes one copy of the suffix, if present. -/
def goTrimSuffix (s suffix : List Char) : List Char :=
  if suffix.isSuffixOf s then s.take (s.length - suffix.length) else s

/-- `strings.TrimPrefix(s, pre)`: removes one leading copy of `pre`, if present. -/
def goTrimLeading (s pre : List Char) : List Char :=
  if pre.isPrefixOf s then s.drop pre.length else s

/-- URL composition in `RESTAPIHandler.executeQuery`:
`baseURL = strings.TrimSuffix(baseURL, "/")`,
`endpoint = strings.TrimPrefix(queryModel.RESTEndpoint, "/")`,
`fullURL = baseURL + "/" + endpoint`. -/
def restFullURL (baseURL endpoint : List Char) : List Char :=
  goTrimSuffix baseURL ['/'] ++ '/' :: goTrimLeading endpoint ['/']

/-- Modelled from the spec's words (§4.4): the base URL with ALL trailing
separators trimmed, joined by exactly one '/' to the endpoint with ALL
leading separators trimmed.  Compared against `restFullURL`. -/
def specSingleDelimJoin (baseURL endpoint : List Char) : List Char :=
  (baseURL.reverse.dropWhile (fun c => c = '/')).reverse
    ++ '/' :: endpoint.dropWhile (fun c => c = '/')

/-! ## Number parsing (`strconv`)

`strconv.ParseFloat(s, 64)` is modelled by a syntactic success predicate
and an exact rational value.  Modelled forms: optional sign, decimal
mantissa with optional fraction, optional decimal exponent, and the
case-insensitive `inf`/`infinity` (signed) and `nan` (unsigned) specials.
Go additionally accepts hex-float literals and digit-separating
underscores; no claim depends on those forms.  The non-finite specials
carry value 0 here; no claim reads their value. -/

def isDigitChar (c : Char) : Bool := '0' ≤ c && c ≤ '9'

def digitsToNat (l : List Char) : Nat :=
  l.foldl (fun acc c => acc * 10 + (c.toNat - 48)) 0

def lowerChar (c : Char) : Char :=
  if 'A' ≤ c && c ≤ 'Z' then Char.ofNat (c.toNat + 32) else c

/-- Mantissa and exponent to an exact rational:
`mant * 10 ^ (exp - frac)`. -/
def decimalValue (mant : Nat) (frac : Nat) (exp : Int) : Rat :=
  if 0 ≤ exp - (frac : Int) then
    (mant : Rat) * (10 : Rat) ^ (exp - (frac : Int)).toNat
  else (mant : Rat) / (10 : Rat) ^ ((frac : Int) - exp).toNat

/-- Exponent part after the mantissa: empty, or `e`/`E` sign digits. -/
def parseExpPart (mant : Nat) (frac : Nat) : List Char → Option Rat
  | [] => some (decimalValue mant frac 0)
  | c :: r =>
    if lowerChar c = 'e' then
      match r with
      | '+' :: d =>
        if d ≠ [] ∧ d.all isDigitChar then
          some (decimalValue mant frac (digitsToNat d)) else none
      | '-' :: d =>
        if d ≠ [] ∧ d.all isDigitChar then
          some (decimalValue mant frac (-(digitsToNat d : Int))) else none
      | d =>
        if d ≠ [] ∧ d.all isDigitChar then
          some (decimalValue mant frac (digitsToNat d)) else none
    else none

/-- Unsigned decimal mantissa `digits [. digits]` followed by an optional
exponent; at least one mantissa digit is required. -/
def parseDecimal (l : List Char) : Option Rat :=
  let ip := l.takeWhile isDigitChar
  let r1 := l.dropWhile isDigitChar
  match r1 with
  | '.' :: r2 =>
    let fp := r2.takeWhile isDigitChar
    let r3 := r2.dropWhile isDigitChar
    if ip = [] ∧ fp = [] then none
    else parseExpPart (digitsToNat (ip ++ fp)) fp.length r3
  | _ => if ip = [] then none else parseExpPart (digitsToNat ip) 0 r1

/-- `strconv.ParseFloat(s, 64)` as an `Option` over exact rationals. -/
def goParseFloat? (s : String) : Option Rat :=
  let low := s.data.map lowerChar
  if low = "inf".data ∨ low = "+inf".data ∨ low = "-inf".data
      ∨ low = "infinity".data ∨ low = "+infinity".data ∨ low = "-infinity".data
      ∨ low = "nan".data then
    some 0
  else
    match s.data with
    | '+' :: r => parseDecimal r
    | '-' :: r => (parseDecimal r).map Neg.neg
    | r => parseDecimal r

def goParseFloatOk (s : String) : Bool := (goParseFloat? s).isSome

def goParseFloatVal (s : String) : Rat := (goParseFloat? s).getD 0

/-- `strconv.ParseInt(s, 10, 64)`: optional sign, at least one decimal
digit, nothing else, and the value must fit in a signed 64-bit integer. -/
def goParseInt64? (s : String) : Option Int :=
  let core : List Char → Option Nat := fun l =>
    if l ≠ [] ∧ l.all isDigitChar then some (digitsToNat l) else none
  match s.data with
  | '+' :: r =>
    (core r).bind fun n =>
      if (n : Int) ≤ 9223372036854775807 then some (n : Int) else none
  | '-' :: r =>
    (core r).bind fun n =>
      if (n : Int) ≤ 9223372036854775808 then some (-(n : Int)) else none
  | r =>
    (core r).bind fun n =>
      if (n : Int) ≤ 9223372036854775807 then some (n : Int) else none

/-- Go numeric conversion `int64(q)` of a `float64`: truncation toward zero. -/
def ratTrunc (q : Rat) : Int := if 0 ≤ q then Int.floor q else Int.ceil q

/-! ## The uniform Frame model (`grafana-plugin-sdk-go/data`) -/

inductive FrameType where
  | timeSeriesMany : FrameType
  | logLines : FrameType
deriving DecidableEq, Inhabited

/-- The value column of a `data.Field`, tagged with its element kind
(`data.NewField` dispatches on the slice's element type). -/
inductive FieldValues where
  | times : List GoTime → FieldValues
  | nums : List Rat → FieldValues
  | strs : List String → FieldValues
  | anys : List Jvalue → FieldValues

structure Field where
  name : String
  labels : List (String × String) := []
  displayName : Option String := none
  values : FieldValues

/-- Row count of one Field. -/
def Field.len (f : Field) : Nat :=
  match f.values with
  | .times ts => ts.length
  | .nums xs => xs.length
  | .strs ss => ss.length
  | .anys vs => vs.length

structure Frame where
  name : String
  fields : List Field
  metaType : Option FrameType := none
  metaCustomLabels : Option (List (String × String)) := none

/-! ## Prometheus handler (`pkg/plugin/prometheus.go`) -/

/-- One entry of `resp.Data.Result` in `models.PrometheusQueryResponse`. -/
structure PromResult where
  Metric : List (String × String) := []
  Values : List (List Jvalue) := []
  Value : List Jvalue := []

structure PrometheusQueryResponse where
  Status : String := ""
  Result : List PromResult := []

/-- `PrometheusHandler.buildSeriesName`. -/
def buildSeriesName (metric : List (String × String)) : String :=
  match metric.lookup "__name__" with
  | some name => name
  | none =>
    match metric.lookup "instance" with
    | some inst => inst
    | none => "series"

/-- The range-branch loop of `PrometheusHandler.convertToDataFrames`:
`times`/`values` are preallocated (`make`) with zero values; an entry
with fewer than two elements is skipped by `continue`, leaving the
zero values in place; malformed timestamps or values abort with an
error. -/
def rangeLoop : List (List Jvalue) → Nat → List GoTime → List Rat →
    Except String (List GoTime × List Rat)
  | [], _, times, values => .ok (times, values)
  | val :: rest, i, times, values =>
    if val.length < 2 then rangeLoop rest (i + 1) times values
    else
      match val.getD 0 .jnull with
      | .jnum ts =>
        match val.getD 1 .jnull with
        | .jstr valStr =>
          if goParseFloatOk valStr then
            rangeLoop rest (i + 1)
              (times.set i (timeUnix (ratTrunc ts) 0))
              (values.set i (goParseFloatVal valStr))
          else .error "failed to parse value"
        | _ => .error "invalid value format"
      | _ => .error "invalid timestamp format"

/-- Frame assembly shared by both branches of
`PrometheusHandler.convertToDataFrames`. -/
def promFrame (metric : List (String × String))
    (times : List GoTime) (values : List Rat) : Frame :=
  { name := ""
    fields :=
      [ { name := "time", values := .times times }
      , { name := "value", labels := metric
          displayName := some (buildSeriesName metric), values := .nums values } ]
    metaType := some .timeSeriesMany }

/-- One result series of `PrometheusHandler.convertToDataFrames`. -/
def promSeriesFrame (isRangeQuery : Bool) (result : PromResult) :
    Except String Frame :=
  if isRangeQuery then
    match rangeLoop result.Values 0
        (List.replicate result.Values.length goTimeZero)
        (List.replicate result.Values.length 0) with
    | .error e => .error e
    | .ok (times, values) => .ok (promFrame result.Metric times values)
  else
    if result.Value.length < 2 then .error "invalid instant query response"
    else
      match result.Value.getD 0 .jnull with
      | .jnum ts =>
        match result.Value.getD 1 .jnull with
        | .jstr valStr =>
          if goParseFloatOk valStr then
            .ok (promFrame result.Metric [timeUnix (ratTrunc ts) 0]
              [goParseFloatVal valStr])
          else .error "failed to parse value"
        | _ => .error "invalid value format"
      | _ => .error "invalid timestamp format"

/-- `PrometheusHandler.convertToDataFrames`: one frame per result series,
aborting the whole conversion on the first per-series error. -/
def promConvertToDataFrames (resp : PrometheusQueryResponse)
    (isRangeQuery : Bool) : Except String (List Frame) :=
  promConvertLoop isRangeQuery resp.Result
where
  promConvertLoop (isRangeQuery : Bool) :
      List PromResult → Except String (List Frame)
    | [] => .ok []
    | r :: rest =>
      match promSeriesFrame isRangeQuery r with
      | .error e => .error e
      | .ok f =>
        match promConvertLoop isRangeQuery rest with
        | .error e => .error e
        | .ok fs => .ok (f :: fs)

/-! ## Prometheus request shaping (`PrometheusHandler.executeQuery`) -/

structure TimeRange where
  From : GoTime
  To : GoTime
deriving DecidableEq, Inhabited

/-- `models.QueryModel`. -/
structure QueryModel where
  QueryType : String := ""
  PromQL : String := ""
  LogQL : String := ""
  RESTEndpoint : String := ""
  RESTMethod : String := ""
  RESTHeaders : List (String × String) := []
  RESTBody : String := ""
  RefID : String := ""
deriving DecidableEq, Inhabited

/-- `backend.DataQuery`: the caller identifier, time range, suggested
interval (a `time.Duration` in nanoseconds) and the decoded JSON payload
(`json.Unmarshal` into `models.QueryModel` is modelled by its outcome:
`none` means the payload was malformed). -/
structure DataQuery where
  RefID : String
  TimeRange : TimeRange
  Interval : Int := 0
  JSON : Option QueryModel := none
deriving DecidableEq, Inhabited

/-- `time.Duration.Seconds()` truncated by `int64(...)`. -/
def durSecondsTrunc (d : Int) : Int := Int.tdiv d 1000000000

/-- The URL and query-string parameters built by
`PrometheusHandler.executeQuery` before the HTTP call. -/
structure PromRequest where
  url : String
  params : List (String × String)

def promExecuteQueryRequest (config : DataSourceConfig)
    (query : DataQuery) (queryModel : QueryModel) : PromRequest :=
  let isRangeQuery : Bool := query.TimeRange.From ≠ query.TimeRange.To
  let promURL :=
    if isRangeQuery then config.PrometheusURL ++ "/api/v1/query_range"
    else config.PrometheusURL ++ "/api/v1/query"
  let params0 := mapSet [] "query" queryModel.PromQL
  let params :=
    if isRangeQuery then
      let p1 := mapSet params0 "start" (toString (goUnix query.TimeRange.From))
      let p2 := mapSet p1 "end" (toString (goUnix query.TimeRange.To))
      let step := if query.Interval = 0 then 15 * 1000000000 else query.Interval
      mapSet p2 "step" (toString (durSecondsTrunc step) ++ "s")
    else
      mapSet params0 "time" (toString (goUnix query.TimeRange.To))
  { url := promURL, params := params }

/-- Extraction of the timestamp of one well-formed wire pair
(`times[i] = time.Unix(int64(ts), 0)`). -/
def pairTs (val : List Jvalue) : GoTime :=
  timeUnix (ratTrunc (match val.getD 0 .jnull with | .jnum q => q | _ => 0)) 0

/-- Extraction of the numeric value of one well-formed wire pair. -/
def pairVal (val : List Jvalue) : Rat :=
  goParseFloatVal (match val.getD 1 .jnull with | .jstr s => s | _ => "")

/-- A well-formed `[timestamp, "value"]` wire pair: at least two elements,
a numeric timestamp, and a string value that parses as a float. -/
def WfRangePair (val : List Jvalue) : Prop :=
  2 ≤ val.length
  ∧ (∃ ts : Rat, val.getD 0 .jnull = .jnum ts)
  ∧ (∃ s : String, val.getD 1 .jnull = .jstr s ∧ goParseFloatOk s = true)

/-! ## Loki handler (`LokiHandler.convertToDataFrames`) -/

/-- One entry of `resp.Data.Result` in `models.LokiQueryResponse`. -/
structure LokiResult where
  Stream : List (String × String) := []
  Values : List (List String) := []

structure LokiQueryResponse where
  Status : String := ""
  Result : List LokiResult := []

/-- `LokiHandler.buildSeriesName`: prefers `job`, then `instance`, then
the first label value in map-iteration order, else "logs". -/
def lokiBuildSeriesName (labels : List (String × String)) : String :=
  match labels.lookup "job" with
  | some job => job
  | none =>
    match labels.lookup "instance" with
    | some inst => inst
    | none =>
      match labels with
      | (_, v) :: _ => v
      | [] => "logs"

/-- One iteration of the entry loop in `LokiHandler.convertToDataFrames`:
an entry with fewer than two elements is skipped (`continue`), as is an
entry whose nanosecond timestamp fails `strconv.ParseInt`; otherwise
`time.Unix(0, tsNano)` and the log line are kept. -/
def lokiEntry? (val : List String) : Option (GoTime × String) :=
  if val.length < 2 then none
  else
    match goParseInt64? (val.getD 0 "") with
    | none => none
    | some tsNano => some (timeUnix 0 tsNano, val.getD 1 "")

/-- The entry loop: builds the parallel `times`/`values` slices. -/
def lokiStreamFold (vals : List (List String)) : List GoTime × List String :=
  vals.foldl
    (fun (acc : List GoTime × List String) val =>
      match lokiEntry? val with
      | none => acc
      | some (ts, line) => (acc.1 ++ [ts], acc.2 ++ [line]))
    ([], [])

/-- Frame assembly for one stream: time Field plus a string Field
carrying the stream labels, tagged log-lines with the labels attached
as custom metadata. -/
def lokiFrame (labels : List (String × String))
    (times : List GoTime) (values : List String) : Frame :=
  { name := ""
    fields :=
      [ { name := "time", values := .times times }
      , { name := "value", labels := labels
          displayName := some (lokiBuildSeriesName labels), values := .strs values } ]
    metaType := some .logLines
    metaCustomLabels := some labels }

/-- The per-stream step of `LokiHandler.convertToDataFrames`: a stream
whose entry loop kept zero entries contributes no Frame (`continue`). -/
def lokiStep (frames : List Frame) (result : LokiResult) : List Frame :=
  let tv := lokiStreamFold result.Values
  if tv.1.length = 0 then frames
  else frames ++ [lokiFrame result.Stream tv.1 tv.2]

/-- `LokiHandler.convertToDataFrames`; the conversion itself never
fails (the Go function always returns a nil error). -/
def lokiConvertToDataFrames (resp : LokiQueryResponse) : List Frame :=
  resp.Result.foldl lokiStep []

/-! ## REST handler normalization (`RESTAPIHandler`)

`time.Now()` is modelled by an explicit `now` parameter. -/

/-- The recognized timestamp keys, in the priority order probed by
`arrayToDataFrame`. -/
def timeKeys : List String := ["time", "timestamp", "date", "ts", "datetime"]

/-- The skip test used in the numeric loops
(`key == "time" || ... || key == "datetime"`). -/
def isTimeKey (k : String) : Bool :=
  k = "time" || k = "timestamp" || k = "date" || k = "ts" || k = "datetime"

/-- Probe the keys in priority order against the object (`obj[timeKey]`). -/
def lookupFirst (obj : List (String × Jvalue)) : List String → Option Jvalue
  | [] => none
  | k :: ks =>
    match obj.lookup k with
    | some v => some v
    | none => lookupFirst obj ks

def findTimeVal (obj : List (String × Jvalue)) : Option Jvalue :=
  lookupFirst obj timeKeys

def expectChar (l : List Char) (c : Char) : Option (List Char) :=
  match l with
  | c' :: r => if c' = c then some r else none
  | [] => none

def twoDig? : List Char → Option (Nat × List Char)
  | c1 :: c2 :: r =>
    if isDigitChar c1 && isDigitChar c2 then
      some ((c1.toNat - 48) * 10 + (c2.toNat - 48), r)
    else none
  | _ => none

def fourDig? (l : List Char) : Option (Nat × List Char) :=
  match twoDig? l with
  | some (hi, r) =>
    match twoDig? r with
    | some (lo, r') => some (hi * 100 + lo, r')
    | none => none
  | none => none

def daysInMonth (y : Int) (m : Nat) : Nat :=
  if m = 2 then
    if (Int.emod y 4 = 0 ∧ Int.emod y 100 ≠ 0) ∨ Int.emod y 400 = 0 then 29 else 28
  else if m = 4 ∨ m = 6 ∨ m = 9 ∨ m = 11 then 30
  else 31

/-- Days between a proleptic-Gregorian civil date and 1970-01-01. -/
def daysFromCivil (y : Int) (m d : Nat) : Int :=
  let y' : Int := if m ≤ 2 then y - 1 else y
  let era : Int := Int.ediv y' 400
  let yoe : Int := y' - era * 400
  let mp : Int := Int.emod ((m : Int) + 9) 12
  let doy : Int := Int.ediv (153 * mp + 2) 5 + (d : Int) - 1
  let doe : Int := yoe * 365 + Int.ediv yoe 4 - Int.ediv yoe 100 + doy
  era * 146097 + doe - 719468

/-- Fractional-second digits to nanoseconds (first nine digits count). -/
def fracNanos (digits : List Char) : Nat :=
  let d9 := digits.take 9
  digitsToNat d9 * 10 ^ (9 - d9.length)

/-- Numeric offset `Z` or `±HH:MM`, in seconds. -/
def parseOffset? : List Char → Option Int
  | ['Z'] => some 0
  | c :: r =>
    if c = '+' ∨ c = '-' then
      match twoDig? r with
      | some (oh, r2) =>
        match expectChar r2 ':' with
        | some r3 =>
          match twoDig? r3 with
          | some (om, r4) =>
            if r4 = [] ∧ oh ≤ 23 ∧ om ≤ 59 then
              some ((if c = '-' then -1 else 1) * ((oh : Int) * 3600 + (om : Int) * 60))
            else none
          | none => none
        | none => none
      | none => none
    else none
  | _ => none

/-- `time.Parse(time.RFC3339, s)`:
`YYYY-MM-DDTHH:MM:SS[.fff](Z|±HH:MM)` with field-range validation,
returning Unix nanoseconds. -/
def rfc3339Parse? (s : String) : Option GoTime := do
  let (year, r1) ← fourDig? s.data
  let r2 ← expectChar r1 '-'
  let (month, r3) ← twoDig? r2
  let r4 ← expectChar r3 '-'
  let (day, r5) ← twoDig? r4
  let r6 ← expectChar r5 'T'
  let (hh, r7) ← twoDig? r6
  let r8 ← expectChar r7 ':'
  let (mi, r9) ← twoDig? r8
  let r10 ← expectChar r9 ':'
  let (ss, r11) ← twoDig? r10
  let (ns, r12) ←
    (match r11 with
     | '.' :: rf =>
       let ds := rf.takeWhile isDigitChar
       if ds = [] then none else some (fracNanos ds, rf.dropWhile isDigitChar)
     | _ => some (0, r11))
  let offSec ← parseOffset? r12
  if 1 ≤ month ∧ month ≤ 12 ∧ 1 ≤ day ∧ day ≤ daysInMonth (year : Int) month
      ∧ hh ≤ 23 ∧ mi ≤ 59 ∧ ss ≤ 59 then
    some (timeUnix (daysFromCivil (year : Int) month day * 86400
      + (hh : Int) * 3600 + (mi : Int) * 60 + (ss : Int) - offSec) (ns : Int))
  else none

/-- `RESTAPIHandler.parseTimestamp`: RFC 3339 string, then integer string
(milliseconds above 1e12, else seconds), then native number under the
same threshold rule; anything else falls back to `time.Now()`.  (The Go
switch also has an `int64` arm, unreachable from `encoding/json`
decoding, which only yields `float64` numbers.) -/
def parseTimestamp (now : GoTime) (val : Jvalue) : GoTime :=
  match val with
  | .jstr v =>
    match rfc3339Parse? v with
    | some t => t
    | none =>
      match goParseInt64? v with
      | some ts =>
        if ts > 1000000000000 then
          timeUnix (Int.tdiv ts 1000) (Int.tmod ts 1000 * 1000000)
        else timeUnix ts 0
      | none => now
  | .jnum v =>
    if v > 1000000000000 then
      timeUnix (Int.tdiv (ratTrunc v) 1000) (Int.tmod (ratTrunc v) 1000 * 1000000)
    else timeUnix (ratTrunc v) 0
  | _ => now

/-- `RESTAPIHandler.isNumeric`: native numbers, or strings accepted by
`strconv.ParseFloat`. -/
def isNumeric : Jvalue → Bool
  | .jnum _ => true
  | .jstr s => goParseFloatOk s
  | _ => false

/-- `RESTAPIHandler.toFloat64`: numeric kinds pass through, parsable
strings parse, anything else is 0. -/
def toFloat64 : Jvalue → Rat
  | .jnum v => v
  | .jstr s => if goParseFloatOk s then goParseFloatVal s else 0
  | _ => 0

/-- A numeric value Field under construction (name and `[]float64`). -/
abbrev NumField := String × List Rat

/-- First-row field discovery: one numeric Field per non-timestamp key
with a numeric value, in map-iteration order. -/
def discoverFields : List (String × Jvalue) → List NumField
  | [] => []
  | kv :: rest =>
    if isTimeKey kv.1 then discoverFields rest
    else if isNumeric kv.2 then (kv.1, []) :: discoverFields rest
    else discoverFields rest

/-- `valueFields[fieldIdx].Append(...)`. -/
def appendAt : List NumField → Nat → Rat → List NumField
  | [], _, _ => []
  | f :: fs, 0, x => (f.1, f.2 ++ [x]) :: fs
  | f :: fs, n + 1, x => f :: appendAt fs n x

/-- The per-row fill loop: numeric non-timestamp values are appended
POSITIONALLY (`fieldIdx`) to the discovered fields, and appending stops
once `fieldIdx` reaches the number of discovered fields. -/
def fillEntries : Nat → List NumField → List (String × Jvalue) → List NumField
  | _, fields, [] => fields
  | j, fields, kv :: rest =>
    if isTimeKey kv.1 then fillEntries j fields rest
    else if isNumeric kv.2 then
      if j < fields.length then
        fillEntries (j + 1) (appendAt fields j (toFloat64 kv.2)) rest
      else fillEntries j fields rest
    else fillEntries j fields rest

/-- Number of numeric non-timestamp entries of one object row. -/
def numCount : List (String × Jvalue) → Nat
  | [] => 0
  | kv :: rest =>
    if isTimeKey kv.1 then numCount rest
    else if isNumeric kv.2 then numCount rest + 1
    else numCount rest

/-- Whether a JSON array row is an object. -/
def isObjRow : Jvalue → Bool
  | .jobj _ => true
  | _ => false

/-- Numeric non-timestamp entry count of a row (0 for non-objects). -/
def rowNumCount : Jvalue → Nat
  | .jobj o => numCount o
  | _ => 0

/-- Whether a row carries one of the recognized timestamp keys. -/
def rowHasTimeKey : Jvalue → Bool
  | .jobj o => (findTimeVal o).isSome
  | _ => false

/-- The loop state of `arrayToDataFrame`. -/
structure ArrState where
  times : List GoTime := []
  hasTimeField : Bool := false
  valueFields : List NumField := []

/-- One iteration of the row loop of `arrayToDataFrame`.  Note the Go
quirks preserved here: `hasTimeField` is sticky across rows, so a later
row lacking a timestamp key gets the zero `time.Time` (not a synthesized
one) once any earlier row had a timestamp key; field discovery re-runs on
every row until it produces at least one field. -/
def arrayRowStep (now : GoTime) (query : DataQuery) (st : ArrState)
    (item : Jvalue) : ArrState :=
  match item with
  | .jobj obj =>
    let found := findTimeVal obj
    let hasTF := st.hasTimeField || found.isSome
    let timestamp :=
      match found with
      | some tsVal => parseTimestamp now tsVal
      | none =>
        if st.hasTimeField then goTimeZero
        else query.TimeRange.From + (st.times.length : Int) * query.Interval
    let fields0 := if st.valueFields.isEmpty then discoverFields obj else st.valueFields
    let fields1 := fillEntries 0 fields0 obj
    { times := st.times ++ [timestamp], hasTimeField := hasTF, valueFields := fields1 }
  | _ => st

def numFieldToField (f : NumField) : Field :=
  { name := f.1, values := .nums f.2 }

/-- `RESTAPIHandler.arrayToDataFrame` (it never returns an error). -/
def arrayToDataFrame (now : GoTime) (query : DataQuery)
    (arr : List Jvalue) : Frame :=
  match arr with
  | [] => { name := "", fields := [{ name := "value", values := .anys [] }] }
  | first :: _ =>
    match first with
    | .jobj _ =>
      let st := arr.foldl (arrayRowStep now query) {}
      if st.hasTimeField then
        { name := ""
          fields := { name := "time", values := .times st.times }
            :: st.valueFields.map numFieldToField
          metaType := some .timeSeriesMany }
      else
        { name := "", fields := st.valueFields.map numFieldToField }
    | _ => { name := "", fields := [{ name := "value", values := .anys arr }] }

/-- `RESTAPIHandler.objectToDataFrame`: unwrap a `data` array, else a
one-row table with each key's value verbatim. -/
def objectToDataFrame (now : GoTime) (query : DataQuery)
    (obj : List (String × Jvalue)) : Frame :=
  match obj.lookup "data" with
  | some (.jarr dataArr) => arrayToDataFrame now query dataArr
  | _ =>
    { name := ""
      fields := obj.map (fun kv => { name := kv.1, values := .anys [kv.2] }) }

/-- `RESTAPIHandler.primitiveToDataFrame`. -/
def primitiveToDataFrame (now : GoTime) (val : Jvalue) : Frame :=
  { name := ""
    fields := [ { name := "time", values := .times [now] }
              , { name := "value", values := .anys [val] } ] }

/-- `RESTAPIHandler.convertToDataFrames`. -/
def restConvertToDataFrames (now : GoTime) (query : DataQuery)
    (jsonData : Jvalue) : List Frame :=
  match jsonData with
  | .jarr v => [arrayToDataFrame now query v]
  | .jobj v => [objectToDataFrame now query v]
  | _ => [primitiveToDataFrame now jsonData]

/-! ## REST request construction (`RESTAPIHandler.executeQuery`) -/

/-- `strings.ToUpper` (ASCII suffices for HTTP methods). -/
def strToUpper (s : String) : String := ⟨s.data.map Char.toUpper⟩

structure RestRequest where
  method : String
  url : List Char
  headers : Headers
  hasBody : Bool

/-- The request-construction part of `RESTAPIHandler.executeQuery` (after
the base-URL presence check, before the HTTP call): URL join, method
defaulting and case-normalization, body gating to POST/PUT/PATCH, the
per-query headers, the default `Content-Type` when a body is present and
none was set, then the credential injector.  The data-source-level
`Config.RESTHeaders` is nowhere consulted by the Go function. -/
def restExecuteQueryRequest (config : DataSourceConfig)
    (queryModel : QueryModel) : RestRequest :=
  let fullURL := restFullURL config.RESTURL.data queryModel.RESTEndpoint.data
  let method0 := strToUpper queryModel.RESTMethod
  let method := if method0 = "" then "GET" else method0
  let hasBody : Bool :=
    queryModel.RESTBody ≠ "" ∧ (method = "POST" ∨ method = "PUT" ∨ method = "PATCH")
  let h1 := queryModel.RESTHeaders.foldl (fun h kv => headerSet h kv.1 kv.2) []
  let h2 :=
    if headerGet h1 "Content-Type" = "" ∧ hasBody = true then
      headerSet h1 "Content-Type" "application/json"
    else h1
  { method := method
    url := fullURL
    headers := addAuthHeaders config h2
    hasBody := hasBody }

/-! ## Query router (`Datasource.QueryData` / `Datasource.handleQuery`) -/

inductive DataResponse where
  | frames : List Frame → DataResponse
  | err : String → DataResponse

/-- The three handler executions past their local precondition checks are
network-bound; they are modelled as an oracle giving each handler's
response for a query.  The router claims hold for every oracle. -/
structure HandlerNet where
  prom : DataQuery → QueryModel → DataResponse
  loki : DataQuery → QueryModel → DataResponse
  rest : DataQuery → QueryModel → DataResponse

/-- `Datasource.handlePrometheusQuery` precondition checks. -/
def handlePrometheusQuery (net : HandlerNet) (config : DataSourceConfig)
    (query : DataQuery) (queryModel : QueryModel) : DataResponse :=
  if config.PrometheusURL = "" then .err "Prometheus URL not configured"
  else if queryModel.PromQL = "" then .err "PromQL query is required"
  else net.prom query queryModel

/-- `Datasource.handleLokiQuery` precondition checks. -/
def handleLokiQuery (net : HandlerNet) (config : DataSourceConfig)
    (query : DataQuery) (queryModel : QueryModel) : DataResponse :=
  if config.LokiURL = "" then .err "Loki URL not configured"
  else if queryModel.LogQL = "" then .err "LogQL query is required"
  else net.loki query queryModel

/-- `Datasource.handleRESTQuery` endpoint check plus the base-URL check
at the top of `RESTAPIHandler.executeQuery`. -/
def handleRESTQuery (net : HandlerNet) (config : DataSourceConfig)
    (query : DataQuery) (queryModel : QueryModel) : DataResponse :=
  if queryModel.RESTEndpoint = "" then .err "REST endpoint is required"
  else if config.RESTURL = "" then .err "REST API base URL not configured"
  else net.rest query queryModel

/-- `Datasource.handleQuery`: unmarshal the payload (modelled by its
outcome in `DataQuery.JSON`; the Go error message carries the unmarshal
detail), stamp the RefID, and dispatch on the declared type tag; an
unrecognized tag yields a local error naming the unknown type. -/
def handleQuery (net : HandlerNet) (config : DataSourceConfig)
    (query : DataQuery) : DataResponse :=
  match query.JSON with
  | none => .err "failed to parse query"
  | some qm0 =>
    let queryModel := { qm0 with RefID := query.RefID }
    if queryModel.QueryType = "prometheus" then
      handlePrometheusQuery net config query queryModel
    else if queryModel.QueryType = "loki" then
      handleLokiQuery net config query queryModel
    else if queryModel.QueryType = "rest" then
      handleRESTQuery net config query queryModel
    else .err ("unknown query type: " ++ queryModel.QueryType)

/-- `Datasource.QueryData`: one response per query, keyed by the
caller-supplied RefID in the `Responses` map. -/
def queryData (net : HandlerNet) (config : DataSourceConfig)
    (queries : List DataQuery) : List (String × DataResponse) :=
  queries.foldl
    (fun responses q => mapSet responses q.RefID (handleQuery net config q)) []

/-! ## Theorems -/

theorem lookup_mapSet {β : Type} :
    ∀ (m : List (String × β)) (k k' : String) (v : β),
      (mapSet m k v).lookup k' = if k' = k then some v else m.lookup k'
  | [], k, k', v => by
    by_cases h : k' = k
    · simp [mapSet, List.lookup, h]
    · simp [mapSet, List.lookup, h, beq_false_of_ne h]
  | (a, b) :: rest, k, k', v => by
    by_cases hak : a = k
    · subst hak
      by_cases h : k' = a
      · simp [mapSet, List.lookup, h]
      · simp [mapSet, List.lookup, h, beq_false_of_ne h]
    · by_cases hka : k' = a
      · subst hka
        simp [mapSet, hak, List.lookup, Ne.symm hak, beq_false_of_ne (Ne.symm hak),
          lookup_mapSet rest]
      · by_cases h : k' = k <;>
          simp [mapSet, hak, List.lookup, h, hka, beq_false_of_ne hka,
            beq_false_of_ne (Ne.symm hak), lookup_mapSet rest]

theorem headerGet_headerSet (h : Headers) (k k' v : String) :
    headerGet (headerSet h k v) k' =
      if canonicalKey k' = canonicalKey k then v else headerGet h k' := by
  unfold headerGet headerSet
  rw [lookup_mapSet]
  split <;> simp

theorem strStarts_append (p s : String) : strStarts (p ++ s) p = true := by
  unfold strStarts
  rw [String.data_append]
  simp [List.isPrefixOf_iff_prefix]

theorem bearer_not_basic (t : String) :
    strStarts ("Bearer " ++ t) "Basic " = false := by
  have hd : ("Bearer " ++ t).data
      = 'B' :: 'e' :: 'a' :: 'r' :: 'e' :: 'r' :: ' ' :: t.data := by
    rw [String.data_append]; rfl
  simp [strStarts, hd, List.isPrefixOf]

theorem basic_not_bearer (t : String) :
    strStarts ("Basic " ++ t) "Bearer " = false := by
  have hd : ("Basic " ++ t).data
      = 'B' :: 'a' :: 's' :: 'i' :: 'c' :: ' ' :: t.data := by
    rw [String.data_append]; rfl
  simp [strStarts, hd, List.isPrefixOf]

theorem empty_not_bearer : strStarts "" "Bearer " = false := rfl

theorem empty_not_basic : strStarts "" "Basic " = false := rfl

theorem headerGet_addAuth_auth (config : DataSourceConfig) (req : Headers) :
    headerGet (addAuthHeaders config req) "Authorization" =
      if config.BearerToken ≠ "" then "Bearer " ++ config.BearerToken
      else if config.APIKey ≠ "" then headerGet req "Authorization"
      else if config.BasicAuthUser ≠ "" ∧ config.BasicAuthPass ≠ "" then
        "Basic " ++ base64Encode (config.BasicAuthUser ++ ":" ++ config.BasicAuthPass)
      else headerGet req "Authorization" := by
  unfold addAuthHeaders setBasicAuth
  split
  · rw [headerGet_headerSet]; simp
  · split
    · rw [headerGet_headerSet]
      have : canonicalKey "Authorization" ≠ canonicalKey "X-API-Key" := by decide
      simp [this]
    · split
      · rw [headerGet_headerSet]; simp
      · rfl

theorem headerGet_addAuth_apikey (config : DataSourceConfig) (req : Headers) :
    headerGet (addAuthHeaders config req) "X-API-Key" =
      if config.BearerToken ≠ "" then headerGet req "X-API-Key"
      else if config.APIKey ≠ "" then config.APIKey
      else headerGet req "X-API-Key" := by
  unfold addAuthHeaders setBasicAuth
  have hne : canonicalKey "X-API-Key" ≠ canonicalKey "Authorization" := by decide
  split
  · rw [headerGet_headerSet]; simp [hne]
  · split
    · rw [headerGet_headerSet]; simp
    · split
      · rw [headerGet_headerSet]; simp [hne]
      · rfl

/-- Claim C5: the credential injector applies at most one auth scheme,
chosen by fixed precedence (bearer token, else API key, else basic auth,
else unauthenticated), and never two schemes at once, for any request
that does not already carry an auth header. -/
theorem C5_auth_single_scheme_precedence (config : DataSourceConfig) (req : Headers)
    (hA : headerGet req "Authorization" = "")
    (hK : headerGet req "X-API-Key" = "") :
    (¬(usesBearer (addAuthHeaders config req) = true
         ∧ usesAPIKey (addAuthHeaders config req) = true)
      ∧ ¬(usesBearer (addAuthHeaders config req) = true
         ∧ usesBasic (addAuthHeaders config req) = true)
      ∧ ¬(usesAPIKey (addAuthHeaders config req) = true
         ∧ usesBasic (addAuthHeaders config req) = true))
    ∧ (config.BearerToken ≠ "" →
        usesBearer (addAuthHeaders config req) = true
        ∧ usesAPIKey (addAuthHeaders config req) = false
        ∧ usesBasic (addAuthHeaders config req) = false)
    ∧ (config.BearerToken = "" → config.APIKey ≠ "" →
        usesAPIKey (addAuthHeaders config req) = true
        ∧ usesBearer (addAuthHeaders config req) = false
        ∧ usesBasic (addAuthHeaders config req) = false)
    ∧ (config.BearerToken = "" → config.APIKey = "" →
        config.BasicAuthUser ≠ "" → config.BasicAuthPass ≠ "" →
        usesBasic (addAuthHeaders config req) = true
        ∧ usesBearer (addAuthHeaders config req) = false
        ∧ usesAPIKey (addAuthHeaders config req) = false)
    ∧ (config.BearerToken = "" → config.APIKey = "" →
        ¬(config.BasicAuthUser ≠ "" ∧ config.BasicAuthPass ≠ "") →
        addAuthHeaders config req = req) := by
  have hauth := headerGet_addAuth_auth config req
  have hkey := headerGet_addAuth_apikey config req
  by_cases hb : config.BearerToken = ""
  · by_cases hk : config.APIKey = ""
    · by_cases hu : config.BasicAuthUser ≠ "" ∧ config.BasicAuthPass ≠ ""
      · simp only [hb, hk, hu, ne_eq, not_true_eq_false, if_false, if_true,
          not_false_eq_true, and_self, if_pos] at hauth hkey
        refine ⟨?_, ?_, ?_, ?_, ?_⟩
        · simp [usesBearer, usesAPIKey, usesBasic, hauth, hkey, hK,
            basic_not_bearer, strStarts_append]
        · intro h; exact absurd hb h
        · intro _ h; exact absurd hk h
        · intro _ _ _ _
          simp [usesBearer, usesAPIKey, usesBasic, hauth, hkey, hK,
            basic_not_bearer, strStarts_append]
        · intro _ _ h; exact absurd hu h
      · have hreq : addAuthHeaders config req = req := by
          unfold addAuthHeaders
          simp [hb, hk, hu]
        refine ⟨?_, ?_, ?_, ?_, ?_⟩
        · simp [usesBearer, usesAPIKey, usesBasic, hreq, hA, hK,
            empty_not_bearer, empty_not_basic]
        · intro h; exact absurd hb h
        · intro _ h; exact absurd hk h
        · intro _ _ h1 h2; exact absurd ⟨h1, h2⟩ hu
        · intro _ _ _; exact hreq
    · simp only [hb, hk, ne_eq, not_true_eq_false, if_false,
        not_false_eq_true, if_true] at hauth hkey
      refine ⟨?_, ?_, ?_, ?_, ?_⟩
      · simp [usesBearer, usesAPIKey, usesBasic, hauth, hkey, hA,
          empty_not_bearer, empty_not_basic]
      · intro h; exact absurd hb h
      · intro _ _
        simp [usesBearer, usesAPIKey, usesBasic, hauth, hkey, hA, hk,
          empty_not_bearer, empty_not_basic]
      · intro _ h; exact absurd h hk
      · intro _ h; exact absurd h hk
  · simp only [hb, ne_eq, not_false_eq_true, if_true] at hauth hkey
    refine ⟨?_, ?_, ?_, ?_, ?_⟩
    · simp [usesBearer, usesAPIKey, usesBasic, hauth, hkey, hK,
        bearer_not_basic, strStarts_append]
    · intro _
      simp [usesBearer, usesAPIKey, usesBasic, hauth, hkey, hK,
        bearer_not_basic, strStarts_append]
    · intro h; exact absurd h hb
    · intro h; exact absurd h hb
    · intro h; exact absurd h hb

/-- Concrete instantiations of C5 at each precedence level. -/
theorem C5_witness :
    (usesBearer (addAuthHeaders { BearerToken := "tok", APIKey := "k" } []) = true
      ∧ usesAPIKey (addAuthHeaders { BearerToken := "tok", APIKey := "k" } []) = false
      ∧ usesBasic (addAuthHeaders { BearerToken := "tok", APIKey := "k" } []) = false)
    ∧ (usesAPIKey (addAuthHeaders { APIKey := "k", BasicAuthUser := "u", BasicAuthPass := "p" } []) = true
      ∧ usesBearer (addAuthHeaders { APIKey := "k", BasicAuthUser := "u", BasicAuthPass := "p" } []) = false
      ∧ usesBasic (addAuthHeaders { APIKey := "k", BasicAuthUser := "u", BasicAuthPass := "p" } []) = false)
    ∧ (usesBasic (addAuthHeaders { BasicAuthUser := "u", BasicAuthPass := "p" } []) = true
      ∧ usesBearer (addAuthHeaders { BasicAuthUser := "u", BasicAuthPass := "p" } []) = false
      ∧ usesAPIKey (addAuthHeaders { BasicAuthUser := "u", BasicAuthPass := "p" } []) = false)
    ∧ addAuthHeaders {} [] = [] :=
  ⟨((C5_auth_single_scheme_precedence { BearerToken := "tok", APIKey := "k" } []
      (by decide) (by decide)).2.1 (by decide)),
   ((C5_auth_single_scheme_precedence { APIKey := "k", BasicAuthUser := "u", BasicAuthPass := "p" } []
      (by decide) (by decide)).2.2.1 (by decide) (by decide)),
   ((C5_auth_single_scheme_precedence { BasicAuthUser := "u", BasicAuthPass := "p" } []
      (by decide) (by decide)).2.2.2.1 (by decide) (by decide) (by decide) (by decide)),
   ((C5_auth_single_scheme_precedence {} []
      (by decide) (by decide)).2.2.2.2 (by decide) (by decide) (by decide))⟩

/-- Claim C10: with no bearer token and no API key, basic-auth is applied
only when both the username and the password are non-empty; if exactly one
of them is set, the request is left untouched (no authentication). -/
theorem C10_basic_auth_needs_both (config : DataSourceConfig) (req : Headers)
    (hb : config.BearerToken = "") (hk : config.APIKey = "")
    (hone : (config.BasicAuthUser ≠ "" ∧ config.BasicAuthPass = "")
          ∨ (config.BasicAuthUser = "" ∧ config.BasicAuthPass ≠ "")) :
    addAuthHeaders config req = req := by
  unfold addAuthHeaders
  rcases hone with ⟨h1, h2⟩ | ⟨h1, h2⟩ <;> simp [hb, hk, h1, h2]

/-- Concrete instantiation of C10: only the username set, request unchanged. -/
theorem C10_witness :
    addAuthHeaders { BasicAuthUser := "u" } [("Accept", "x")] = [("Accept", "x")] :=
  C10_basic_auth_needs_both { BasicAuthUser := "u" } [("Accept", "x")]
    (by decide) (by decide) (Or.inl (by decide))

theorem dropWhile_slash_of_not_head (l : List Char) (h : ¬ ['/'] <+: l) :
    l.dropWhile (fun c => c = '/') = l := by
  cases l with
  | nil => rfl
  | cons c rest =>
    have hc : c ≠ '/' := fun hcc => h (by subst hcc; exact ⟨rest, rfl⟩)
    simp [List.dropWhile, hc]

theorem goTrimLeading_slash (l : List Char) (h : ¬ ['/', '/'] <+: l) :
    goTrimLeading l ['/'] = l.dropWhile (fun c => c = '/') := by
  cases l with
  | nil => rfl
  | cons c rest =>
    by_cases hc : c = '/'
    · subst hc
      have hrest : ¬ ['/'] <+: rest := by
        rintro ⟨t, ht⟩
        exact h ⟨t, by rw [← ht]; rfl⟩
      have hpre : List.isPrefixOf ['/'] ('/' :: rest) = true := by
        simp [List.isPrefixOf]
      simp [goTrimLeading, hpre, List.dropWhile,
        dropWhile_slash_of_not_head rest hrest]
    · have hpre : List.isPrefixOf ['/'] (c :: rest) = false := by
        simp [List.isPrefixOf, beq_false_of_ne (Ne.symm hc)]
      simp [goTrimLeading, hpre, List.dropWhile, hc]

theorem goTrimSuffix_slash (l : List Char) (h : ¬ ['/', '/'] <:+ l) :
    goTrimSuffix l ['/'] = (l.reverse.dropWhile (fun c => c = '/')).reverse := by
  have hl : l = l.reverse.reverse := (List.reverse_reverse l).symm
  rw [hl] at h ⊢
  generalize l.reverse = r at *
  cases r with
  | nil => rfl
  | cons c rest =>
    by_cases hc : c = '/'
    · subst hc
      have hrest : ¬ ['/'] <+: rest := by
        rintro ⟨t, ht⟩
        apply h
        refine ⟨t.reverse, ?_⟩
        rw [← ht]
        simp
      have hsuf : List.isSuffixOf ['/'] (('/' :: rest).reverse) = true := by
        unfold List.isSuffixOf
        rw [List.reverse_reverse]
        simp [List.isPrefixOf]
      have hdrop : List.dropWhile (fun c => decide (c = '/')) rest = rest := by
        cases rest with
        | nil => rfl
        | cons d ds =>
          have hd : d ≠ '/' := fun hd => hrest ⟨ds, by simp [hd]⟩
          simp [List.dropWhile, hd]
      unfold goTrimSuffix
      rw [if_pos hsuf, List.reverse_reverse]
      rw [show List.dropWhile (fun c => decide (c = '/')) ('/' :: rest) = rest by
        simp [List.dropWhile, hdrop]]
      rw [show ('/' :: rest).reverse = rest.reverse ++ ['/'] by simp]
      rw [List.take_left' (by simp)]
    · have hsuf : List.isSuffixOf ['/'] ((c :: rest).reverse) = false := by
        unfold List.isSuffixOf
        rw [List.reverse_reverse]
        simp [List.isPrefixOf, beq_false_of_ne (Ne.symm hc)]
      have hsuf' : ¬ (List.isSuffixOf ['/'] ((c :: rest).reverse) = true) := by
        rw [hsuf]; simp
      unfold goTrimSuffix
      rw [if_neg hsuf', List.reverse_reverse]
      rw [show List.dropWhile (fun c => decide (c = '/')) (c :: rest) = c :: rest by
        simp [List.dropWhile, hc]]

/-- Counterexample to claim C7 as stated: with a base URL ending in a
double slash, the code trims only ONE trailing separator, so the joined
URL carries two delimiters, not exactly one. -/
theorem C7_counterexample :
    restFullURL "http://h//".data "e".data = "http://h//e".data
    ∧ restFullURL "http://h//".data "e".data
        ≠ specSingleDelimJoin "http://h//".data "e".data
    ∧ specSingleDelimJoin "http://h//".data "e".data = "http://h/e".data := by
  refine ⟨by decide, by decide, by decide⟩

/-- Claim C7 (amended): the code trims at most ONE trailing separator from
the base and ONE leading separator from the endpoint; whenever the base
does not end in "//" and the endpoint does not start with "//", the joined
URL has exactly one separating delimiter (it agrees with the join that
trims all separators). -/
theorem C7_url_join_single_delimiter (baseURL endpoint : List Char)
    (hb : ¬ ['/', '/'] <:+ baseURL)
    (he : ¬ ['/', '/'] <+: endpoint) :
    restFullURL baseURL endpoint = specSingleDelimJoin baseURL endpoint := by
  unfold restFullURL specSingleDelimJoin
  rw [goTrimSuffix_slash baseURL hb, goTrimLeading_slash endpoint he]

/-- Concrete instantiation of C7 (amended): one trailing and one leading
slash still collapse to a single delimiter. -/
theorem C7_witness :
    restFullURL "http://h/".data "/e".data
      = specSingleDelimJoin "http://h/".data "/e".data :=
  C7_url_join_single_delimiter "http://h/".data "/e".data (by decide) (by decide)

theorem set_append_len {α : Type} :
    ∀ (l : List α) (y : α) (r : List α) (x : α),
      (l ++ y :: r).set l.length x = l ++ x :: r
  | [], y, r, x => rfl
  | a :: as, y, r, x => by
    simp [List.set, set_append_len as y r x]

/-- Bool form of a well-formed `[timestamp, "value"]` wire pair. -/
theorem rangeLoop_wf :
    ∀ (suffix : List (List Jvalue)) (preT : List GoTime) (preV : List Rat),
      (∀ v ∈ suffix, WfRangePair v) →
      preV.length = preT.length →
      rangeLoop suffix preT.length
          (preT ++ List.replicate suffix.length goTimeZero)
          (preV ++ List.replicate suffix.length 0)
        = .ok (preT ++ suffix.map pairTs, preV ++ suffix.map pairVal)
  | [], preT, preV, _, _ => by simp [rangeLoop]
  | val :: rest, preT, preV, h, hpl => by
    obtain ⟨hlen, ⟨ts, hts⟩, ⟨s, hs, hok⟩⟩ := h val (List.mem_cons_self val rest)
    have hrest : ∀ v ∈ rest, WfRangePair v := fun v hv =>
      h v (List.mem_cons_of_mem val hv)
    have hnotlt : ¬ val.length < 2 := by omega
    simp only [List.length_cons, List.replicate_succ, rangeLoop, hnotlt, if_false,
      hts, hs, hok, if_true, List.length_map]
    rw [set_append_len]
    rw [show (preV ++ (0 : Rat) :: List.replicate rest.length 0).set preT.length
          (goParseFloatVal s)
        = preV ++ goParseFloatVal s :: List.replicate rest.length (0 : Rat) by
      rw [← hpl]
      exact set_append_len preV 0 (List.replicate rest.length 0) (goParseFloatVal s)]
    have hT : preT ++ timeUnix (ratTrunc ts) 0 :: List.replicate rest.length goTimeZero
        = (preT ++ [timeUnix (ratTrunc ts) 0]) ++ List.replicate rest.length goTimeZero := by
      simp
    have hV : preV ++ goParseFloatVal s :: List.replicate rest.length 0
        = (preV ++ [goParseFloatVal s]) ++ List.replicate rest.length (0 : Rat) := by
      simp
    rw [hT, hV, show preT.length + 1 = (preT ++ [timeUnix (ratTrunc ts) 0]).length by simp]
    rw [rangeLoop_wf rest (preT ++ [timeUnix (ratTrunc ts) 0])
      (preV ++ [goParseFloatVal s]) hrest (by simp [hpl])]
    have hts' : (val[0]?.getD Jvalue.jnull) = Jvalue.jnum ts := by
      simpa [List.getD] using hts
    have hs' : (val[1]?.getD Jvalue.jnull) = Jvalue.jstr s := by
      simpa [List.getD] using hs
    simp [pairTs, pairVal, hts', hs']

theorem promSeriesFrame_wf (r : PromResult)
    (h : ∀ v ∈ r.Values, WfRangePair v) :
    promSeriesFrame true r
      = .ok (promFrame r.Metric (r.Values.map pairTs) (r.Values.map pairVal)) := by
  have hw := rangeLoop_wf r.Values [] [] h rfl
  simp only [List.length_nil, List.nil_append] at hw
  simp [promSeriesFrame, hw]

theorem promConvertLoop_wf :
    ∀ (rs : List PromResult),
      (∀ r ∈ rs, ∀ v ∈ r.Values, WfRangePair v) →
      promConvertToDataFrames.promConvertLoop true rs
        = .ok (rs.map (fun r =>
            promFrame r.Metric (r.Values.map pairTs) (r.Values.map pairVal)))
  | [], _ => rfl
  | r :: rest, h => by
    have hr := promSeriesFrame_wf r (h r (List.mem_cons_self r rest))
    simp only [promConvertToDataFrames.promConvertLoop, hr]
    rw [promConvertLoop_wf rest (fun r' hr' v hv => h r' (List.mem_cons_of_mem r hr') v hv)]
    rfl

/-- Claim C3: a metrics range response whose series consist of well-formed
`[timestamp, "value"]` pairs converts successfully, and each series' Frame
carries a timestamp Field and a numeric Field that are exactly the input
pairs mapped in order (hence exactly N rows each). -/
theorem C3_range_rows_in_order (resp : PrometheusQueryResponse)
    (h : ∀ r ∈ resp.Result, ∀ v ∈ r.Values, WfRangePair v) :
    promConvertToDataFrames resp true
      = .ok (resp.Result.map (fun r =>
          promFrame r.Metric (r.Values.map pairTs) (r.Values.map pairVal)))
    ∧ ∀ r ∈ resp.Result,
        (promFrame r.Metric (r.Values.map pairTs) (r.Values.map pairVal)).fields.map Field.len
          = [r.Values.length, r.Values.length] := by
  refine ⟨promConvertLoop_wf resp.Result h, ?_⟩
  intro r _
  simp [promFrame, Field.len]

/-- Concrete instantiation of C3 on a response with two well-formed pairs. -/
theorem C3_witness :
    promConvertToDataFrames
      { Status := "success"
        Result := [ { Metric := [("__name__", "up")]
                      Values := [[.jnum 1, .jstr "0.5"], [.jnum 2, .jstr "1"]] } ] }
      true
    = .ok ([ { Metric := [("__name__", "up")]
               Values := [[.jnum 1, .jstr "0.5"], [.jnum 2, .jstr "1"]]
               Value := [] } ].map (fun r : PromResult =>
          promFrame r.Metric (r.Values.map pairTs) (r.Values.map pairVal))) :=
  (C3_range_rows_in_order
    { Status := "success"
      Result := [ { Metric := [("__name__", "up")]
                    Values := [[.jnum 1, .jstr "0.5"], [.jnum 2, .jstr "1"]] } ] }
    (by
      intro r hr v hv
      simp only [List.mem_singleton] at hr
      subst hr
      simp only [List.mem_cons, List.mem_singleton] at hv
      rcases hv with hv | hv | hv
      · subst hv
        exact ⟨by decide, ⟨1, rfl⟩, ⟨"0.5", rfl, by decide⟩⟩
      · subst hv
        exact ⟨by decide, ⟨2, rfl⟩, ⟨"1", rfl, by decide⟩⟩
      · cases hv)).1

theorem rangeLoop_ok_inv (val : List Jvalue) (rest : List (List Jvalue))
    (k : Nat) (times : List GoTime) (values : List Rat)
    (t : List GoTime) (v : List Rat)
    (h : rangeLoop (val :: rest) k times values = .ok (t, v)) :
    (val.length < 2 ∧ rangeLoop rest (k + 1) times values = .ok (t, v))
    ∨ (¬ val.length < 2 ∧ ∃ ts s,
        val.getD 0 .jnull = .jnum ts ∧ val.getD 1 .jnull = .jstr s
        ∧ goParseFloatOk s = true
        ∧ rangeLoop rest (k + 1)
            (times.set k (timeUnix (ratTrunc ts) 0))
            (values.set k (goParseFloatVal s)) = .ok (t, v)) := by
  simp only [rangeLoop] at h
  split at h
  · exact Or.inl ⟨by assumption, h⟩
  · split at h
    case _ ts heq0 =>
      split at h
      case _ s heq1 =>
        split at h
        · exact Or.inr ⟨by assumption, ts, s, heq0, heq1, by assumption, h⟩
        · cases h
      all_goals cases h
    all_goals cases h

theorem rangeLoop_ok_length :
    ∀ (suffix : List (List Jvalue)) (k : Nat) (times : List GoTime)
      (values : List Rat) (t : List GoTime) (v : List Rat),
      rangeLoop suffix k times values = .ok (t, v) →
      t.length = times.length ∧ v.length = values.length
  | [], k, times, values, t, v => by
    intro h
    simp only [rangeLoop, Except.ok.injEq, Prod.mk.injEq] at h
    obtain ⟨h1, h2⟩ := h
    subst h1; subst h2
    exact ⟨rfl, rfl⟩
  | val :: rest, k, times, values, t, v => by
    intro h
    rcases rangeLoop_ok_inv val rest k times values t v h with
      ⟨_, h'⟩ | ⟨_, ts, s, _, _, _, h'⟩
    · exact rangeLoop_ok_length rest (k + 1) times values t v h'
    · have := rangeLoop_ok_length rest (k + 1) _ _ t v h'
      simpa using this

theorem rangeLoop_ok_get_lt :
    ∀ (suffix : List (List Jvalue)) (k : Nat) (times : List GoTime)
      (values : List Rat) (t : List GoTime) (v : List Rat),
      rangeLoop suffix k times values = .ok (t, v) →
      ∀ j, j < k → t[j]? = times[j]? ∧ v[j]? = values[j]?
  | [], k, times, values, t, v => by
    intro h j hj
    simp only [rangeLoop, Except.ok.injEq, Prod.mk.injEq] at h
    obtain ⟨h1, h2⟩ := h
    subst h1; subst h2
    exact ⟨rfl, rfl⟩
  | val :: rest, k, times, values, t, v => by
    intro h j hj
    rcases rangeLoop_ok_inv val rest k times values t v h with
      ⟨_, h'⟩ | ⟨_, ts, s, _, _, _, h'⟩
    · exact rangeLoop_ok_get_lt rest (k + 1) times values t v h' j (by omega)
    · have := rangeLoop_ok_get_lt rest (k + 1) _ _ t v h' j (by omega)
      have hne : k ≠ j := by omega
      simpa [List.getElem?_set, hne] using this

theorem rangeLoop_ok_short :
    ∀ (suffix : List (List Jvalue)) (k : Nat) (times : List GoTime)
      (values : List Rat) (t : List GoTime) (v : List Rat),
      rangeLoop suffix k times values = .ok (t, v) →
      ∀ (d : Nat) (val' : List Jvalue), suffix[d]? = some val' → val'.length < 2 →
        t[k + d]? = times[k + d]? ∧ v[k + d]? = values[k + d]?
  | [], k, times, values, t, v => by
    intro h d val' hd
    simp at hd
  | val :: rest, k, times, values, t, v => by
    intro h d val' hd hshort
    cases d with
    | zero =>
      simp only [List.getElem?_cons_zero, Option.some.injEq] at hd
      subst hd
      rcases rangeLoop_ok_inv val rest k times values t v h with
        ⟨_, h'⟩ | ⟨hge, _, _, _, _, _, _⟩
      · simpa using rangeLoop_ok_get_lt rest (k + 1) times values t v h' k (by omega)
      · exact absurd hshort hge
    | succ d' =>
      simp only [List.getElem?_cons_succ] at hd
      rcases rangeLoop_ok_inv val rest k times values t v h with
        ⟨_, h'⟩ | ⟨_, ts, s, _, _, _, h'⟩
      · have := rangeLoop_ok_short rest (k + 1) times values t v h' d' val' hd hshort
        simpa [show k + 1 + d' = k + (d' + 1) by omega] using this
      · have := rangeLoop_ok_short rest (k + 1) _ _ t v h' d' val' hd hshort
        have hne : k ≠ k + 1 + d' := by omega
        simpa [List.getElem?_set, hne, show k + 1 + d' = k + (d' + 1) by omega]
          using this

/-- Counterexample to the parenthetical of claim C9: the slot left by a
skipped short entry holds the Go zero `time.Time` (year 1), which is NOT
the Unix epoch. -/
theorem C9_counterexample :
    promSeriesFrame true { Metric := [], Values := [[]] }
      = .ok (promFrame [] [goTimeZero] [0])
    ∧ goTimeZero ≠ timeUnix 0 0 :=
  ⟨rfl, by decide⟩

/-- Claim C9 (amended): in the range conversion, a wire entry with fewer
than two elements does not fail the query and is not removed — its row
keeps the zero `time.Time` (0001-01-01 UTC, not the Unix epoch) and the
numeric value 0, and the Frame keeps one row per wire entry. -/
theorem C9_short_entry_keeps_zero_row (r : PromResult) (frame : Frame)
    (hok : promSeriesFrame true r = .ok frame)
    (i : Nat) (val : List Jvalue)
    (hv : r.Values[i]? = some val) (hshort : val.length < 2) :
    ∃ times values,
      frame = promFrame r.Metric times values
      ∧ times.length = r.Values.length
      ∧ values.length = r.Values.length
      ∧ times[i]? = some goTimeZero
      ∧ values[i]? = some (0 : Rat)
      ∧ goTimeZero ≠ timeUnix 0 0 := by
  have hi : i < r.Values.length := by
    by_contra hge
    rw [List.getElem?_eq_none (by omega)] at hv
    cases hv
  simp only [promSeriesFrame, if_pos] at hok
  cases hloop : rangeLoop r.Values 0
      (List.replicate r.Values.length goTimeZero)
      (List.replicate r.Values.length 0) with
  | error e =>
    rw [hloop] at hok
    cases hok
  | ok p =>
    obtain ⟨t, v⟩ := p
    rw [hloop] at hok
    simp only [Except.ok.injEq] at hok
    refine ⟨t, v, hok.symm, ?_, ?_, ?_, ?_, by decide⟩
    · have := (rangeLoop_ok_length _ _ _ _ _ _ hloop).1
      simpa using this
    · have := (rangeLoop_ok_length _ _ _ _ _ _ hloop).2
      simpa using this
    · have := (rangeLoop_ok_short _ _ _ _ _ _ hloop i val (by simpa using hv) hshort).1
      simpa [List.getElem?_replicate, hi] using this
    · have := (rangeLoop_ok_short _ _ _ _ _ _ hloop i val (by simpa using hv) hshort).2
      simpa [List.getElem?_replicate, hi] using this

/-- Concrete instantiation of C9 (amended) at a series with one good and
one short entry. -/
theorem C9_witness :
    ∃ times values,
      promFrame [] [timeUnix 3 0, goTimeZero] [goParseFloatVal "7", 0]
        = promFrame [] times values
      ∧ times.length = 2 ∧ values.length = 2
      ∧ times[1]? = some goTimeZero ∧ values[1]? = some (0 : Rat)
      ∧ goTimeZero ≠ timeUnix 0 0 :=
  C9_short_entry_keeps_zero_row
    { Metric := [], Values := [[.jnum 3, .jstr "7"], [.jnum 9]] }
    (promFrame [] [timeUnix 3 0, goTimeZero] [goParseFloatVal "7", 0])
    (by rfl) 1 [.jnum 9] (by rfl) (by decide)

theorem lokiStreamFold_eq :
    ∀ (vals : List (List String)) (a : List GoTime) (b : List String),
      vals.foldl
        (fun (acc : List GoTime × List String) val =>
          match lokiEntry? val with
          | none => acc
          | some (ts, line) => (acc.1 ++ [ts], acc.2 ++ [line]))
        (a, b)
      = (a ++ (vals.filterMap lokiEntry?).map Prod.fst,
         b ++ (vals.filterMap lokiEntry?).map Prod.snd)
  | [], a, b => by simp
  | val :: rest, a, b => by
    cases he : lokiEntry? val with
    | none =>
      simp only [List.foldl_cons, he, List.filterMap_cons_none he]
      exact lokiStreamFold_eq rest a b
    | some p =>
      obtain ⟨ts, line⟩ := p
      simp only [List.foldl_cons, he, List.filterMap_cons_some he]
      rw [lokiStreamFold_eq rest (a ++ [ts]) (b ++ [line])]
      simp

theorem lokiConvertLoop_eq :
    ∀ (rs : List LokiResult) (acc : List Frame),
      rs.foldl lokiStep acc
      = acc ++ rs.filterMap (fun r =>
          match r.Values.filterMap lokiEntry? with
          | [] => none
          | ps => some (lokiFrame r.Stream (ps.map Prod.fst) (ps.map Prod.snd)))
  | [], acc => by simp
  | r :: rest, acc => by
    have hfold : lokiStreamFold r.Values
        = ((r.Values.filterMap lokiEntry?).map Prod.fst,
           (r.Values.filterMap lokiEntry?).map Prod.snd) := by
      have := lokiStreamFold_eq r.Values [] []
      simpa [lokiStreamFold] using this
    rw [List.foldl_cons, List.filterMap_cons]
    cases hps : r.Values.filterMap lokiEntry? with
    | nil =>
      have hstep : lokiStep acc r = acc := by
        simp [lokiStep, hfold, hps]
      rw [hstep, lokiConvertLoop_eq rest acc]
    | cons p ps' =>
      have hstep : lokiStep acc r
          = acc ++ [lokiFrame r.Stream ((p :: ps').map Prod.fst)
              ((p :: ps').map Prod.snd)] := by
        simp [lokiStep, hfold, hps]
      rw [hstep, lokiConvertLoop_eq rest _]
      simp

theorem mapSet_keys_fresh {β : Type} :
    ∀ (m : List (String × β)) (k : String) (v : β),
      k ∉ m.map Prod.fst →
      (mapSet m k v).map Prod.fst = m.map Prod.fst ++ [k]
  | [], k, v, _ => rfl
  | (a, b) :: rest, k, v, h => by
    have hak : ¬ a = k := by
      intro he
      exact h (by simp [he])
    simp only [mapSet, hak, if_false, List.map_cons]
    rw [mapSet_keys_fresh rest k v (by intro hm; exact h (by simp [hm]))]
    rfl

theorem queryData_foldl_lookup_notin (net : HandlerNet) (config : DataSourceConfig) :
    ∀ (qs : List DataQuery) (m : List (String × DataResponse)) (k : String),
      k ∉ qs.map DataQuery.RefID →
      (qs.foldl (fun responses q => mapSet responses q.RefID (handleQuery net config q)) m).lookup k
        = m.lookup k
  | [], m, k, _ => rfl
  | q :: rest, m, k, h => by
    have hk : k ≠ q.RefID := by
      intro he
      exact h (by simp [he])
    rw [List.foldl_cons,
      queryData_foldl_lookup_notin net config rest _ k (by intro hm; exact h (by simp [hm])),
      lookup_mapSet, if_neg hk]

theorem queryData_foldl_lookup (net : HandlerNet) (config : DataSourceConfig) :
    ∀ (qs : List DataQuery) (m : List (String × DataResponse)),
      (qs.map DataQuery.RefID).Nodup →
      ∀ q ∈ qs,
        (qs.foldl (fun responses q => mapSet responses q.RefID (handleQuery net config q)) m).lookup q.RefID
          = some (handleQuery net config q)
  | [], m, _, q, hq => by cases hq
  | q0 :: rest, m, hnd, q, hq => by
    have hnd' : q0.RefID ∉ rest.map DataQuery.RefID
        ∧ (rest.map DataQuery.RefID).Nodup := by
      rw [List.map_cons, List.nodup_cons] at hnd
      exact hnd
    rw [List.foldl_cons]
    rcases List.mem_cons.mp hq with he | hmem
    · subst he
      rw [queryData_foldl_lookup_notin net config rest _ q.RefID hnd'.1,
        lookup_mapSet, if_pos rfl]
    · exact queryData_foldl_lookup net config rest _ hnd'.2 q hmem

theorem queryData_foldl_length (net : HandlerNet) (config : DataSourceConfig) :
    ∀ (qs : List DataQuery) (m : List (String × DataResponse)),
      (qs.map DataQuery.RefID).Nodup →
      (∀ q ∈ qs, q.RefID ∉ m.map Prod.fst) →
      (qs.foldl (fun responses q => mapSet responses q.RefID (handleQuery net config q)) m).length
        = m.length + qs.length
  | [], m, _, _ => rfl
  | q0 :: rest, m, hnd, hdisj => by
    have hnd' : q0.RefID ∉ rest.map DataQuery.RefID
        ∧ (rest.map DataQuery.RefID).Nodup := by
      rw [List.map_cons, List.nodup_cons] at hnd
      exact hnd
    rw [List.foldl_cons]
    have hfresh : q0.RefID ∉ m.map Prod.fst := hdisj q0 (List.mem_cons_self q0 rest)
    have hkeys := mapSet_keys_fresh m q0.RefID (handleQuery net config q0) hfresh
    have hlen : (mapSet m q0.RefID (handleQuery net config q0)).length = m.length + 1 := by
      have := congrArg List.length hkeys
      simpa using this
    rw [queryData_foldl_length net config rest _ hnd'.2
      (by
        intro q hq
        rw [hkeys]
        simp only [List.mem_append, List.mem_singleton]
        rintro (hin | he)
        · exact hdisj q (List.mem_cons_of_mem q0 hq) hin
        · exact hnd'.1 (he ▸ List.mem_map_of_mem DataQuery.RefID hq)), hlen]
    simp only [List.length_cons]
    omega

/-- Claim C2: the router produces exactly one entry per input query keyed
by the caller-supplied RefID (identifiers unique in the batch, per the
data-model invariant); an unrecognized type tag gets a local error naming
the unknown type; and each query's entry equals that query's own handler
outcome regardless of the other queries in the batch, for every network
oracle — so one query's parse, configuration, or network failure never
removes or alters sibling entries. -/
theorem C2_router_one_entry_per_query (net : HandlerNet)
    (config : DataSourceConfig) (queries : List DataQuery)
    (hnd : (queries.map DataQuery.RefID).Nodup) :
    (queryData net config queries).length = queries.length
    ∧ (∀ q ∈ queries,
        (queryData net config queries).lookup q.RefID
          = some (handleQuery net config q))
    ∧ (∀ q ∈ queries, ∀ qm, q.JSON = some qm →
        qm.QueryType ≠ "prometheus" → qm.QueryType ≠ "loki" → qm.QueryType ≠ "rest" →
        (queryData net config queries).lookup q.RefID
          = some (.err ("unknown query type: " ++ qm.QueryType))) := by
  refine ⟨?_, ?_, ?_⟩
  · have := queryData_foldl_length net config queries [] hnd (by simp)
    simpa [queryData] using this
  · intro q hq
    exact queryData_foldl_lookup net config queries [] hnd q hq
  · intro q hq qm hjson h1 h2 h3
    have hl := queryData_foldl_lookup net config queries [] hnd q hq
    rw [queryData] at *
    rw [hl]
    simp [handleQuery, hjson, h1, h2, h3]

/-- Concrete instantiation of C2: a batch with one well-configured
metrics query, one query with an unknown type tag, and one malformed
query; every entry is present and the failures stay local. -/
theorem C2_witness :
    (queryData
        { prom := fun _ _ => .frames [], loki := fun _ _ => .frames []
          rest := fun _ _ => .frames [] }
        { PrometheusURL := "http://p" }
        [ { RefID := "A", TimeRange := { From := 0, To := 0 }
            JSON := some { QueryType := "prometheus", PromQL := "up" } }
        , { RefID := "B", TimeRange := { From := 0, To := 0 }
            JSON := some { QueryType := "unknown" } }
        , { RefID := "C", TimeRange := { From := 0, To := 0 }, JSON := none } ]).length = 3
    ∧ (queryData
        { prom := fun _ _ => .frames [], loki := fun _ _ => .frames []
          rest := fun _ _ => .frames [] }
        { PrometheusURL := "http://p" }
        [ { RefID := "A", TimeRange := { From := 0, To := 0 }
            JSON := some { QueryType := "prometheus", PromQL := "up" } }
        , { RefID := "B", TimeRange := { From := 0, To := 0 }
            JSON := some { QueryType := "unknown" } }
        , { RefID := "C", TimeRange := { From := 0, To := 0 }, JSON := none } ]).lookup "B"
      = some (.err ("unknown query type: " ++ "unknown")) := by
  refine ⟨(C2_router_one_entry_per_query _ _ _ (by decide)).1, ?_⟩
  have h := (C2_router_one_entry_per_query
    { prom := fun _ _ => .frames [], loki := fun _ _ => .frames []
      rest := fun _ _ => .frames [] }
    { PrometheusURL := "http://p" }
    [ { RefID := "A", TimeRange := { From := 0, To := 0 }
        JSON := some { QueryType := "prometheus", PromQL := "up" } }
    , { RefID := "B", TimeRange := { From := 0, To := 0 }
        JSON := some { QueryType := "unknown" } }
    , { RefID := "C", TimeRange := { From := 0, To := 0 }, JSON := none } ]
    (by decide)).2.2
    { RefID := "B", TimeRange := { From := 0, To := 0 }
      JSON := some { QueryType := "unknown" } }
    (by simp) { QueryType := "unknown" } rfl (by decide) (by decide) (by decide)
  exact h

theorem headerGet_addAuth_other (config : DataSourceConfig) (h : Headers)
    (k : String)
    (hk1 : canonicalKey k ≠ canonicalKey "Authorization")
    (hk2 : canonicalKey k ≠ canonicalKey "X-API-Key") :
    headerGet (addAuthHeaders config h) k = headerGet h k := by
  unfold addAuthHeaders setBasicAuth
  split
  · rw [headerGet_headerSet, if_neg hk1]
  · split
    · rw [headerGet_headerSet, if_neg hk2]
    · split
      · rw [headerGet_headerSet, if_neg hk1]
      · rfl

theorem headerGet_foldl_headerSet_notin :
    ∀ (pairs : List (String × String)) (h : Headers) (k : String),
      (∀ kv ∈ pairs, canonicalKey kv.1 ≠ canonicalKey k) →
      headerGet (pairs.foldl (fun h kv => headerSet h kv.1 kv.2) h) k = headerGet h k
  | [], h, k, _ => rfl
  | kv :: rest, h, k, hne => by
    rw [List.foldl_cons,
      headerGet_foldl_headerSet_notin rest _ k
        (fun kv' hkv' => hne kv' (List.mem_cons_of_mem kv hkv')),
      headerGet_headerSet,
      if_neg (fun he => hne kv (List.mem_cons_self kv rest) he.symm)]

theorem headerGet_foldl_headerSet_mem :
    ∀ (pairs : List (String × String)) (h : Headers) (k v : String),
      (pairs.map (fun kv => canonicalKey kv.1)).Nodup →
      (k, v) ∈ pairs →
      headerGet (pairs.foldl (fun h kv => headerSet h kv.1 kv.2) h) k = v
  | [], h, k, v, _, hmem => by cases hmem
  | kv :: rest, h, k, v, hnd, hmem => by
    have hnd' : canonicalKey kv.1 ∉ rest.map (fun kv => canonicalKey kv.1)
        ∧ (rest.map (fun kv => canonicalKey kv.1)).Nodup := by
      rw [List.map_cons, List.nodup_cons] at hnd
      exact hnd
    rw [List.foldl_cons]
    rcases List.mem_cons.mp hmem with he | hmem'
    · have hk : kv = (k, v) := he.symm
      subst hk
      rw [headerGet_foldl_headerSet_notin rest _ k
        (by
          intro kv' hkv' heq
          exact hnd'.1 (heq ▸ List.mem_map_of_mem (fun kv => canonicalKey kv.1) hkv')),
        headerGet_headerSet, if_pos rfl]
    · exact headerGet_foldl_headerSet_mem rest _ k v hnd'.2 hmem'

/-- Counterexample to claim C8 as stated: a data-source configuration
whose `RESTHeaders` maps `X-Foo` to `bar` produces an outgoing request
with NO headers at all — `Config.RESTHeaders` is never consulted by
`RESTAPIHandler.executeQuery`. -/
theorem C8_counterexample :
    ("X-Foo", "bar") ∈ (DataSourceConfig.RESTHeaders
      { RESTURL := "http://h", RESTHeaders := [("X-Foo", "bar")] })
    ∧ (restExecuteQueryRequest
        { RESTURL := "http://h", RESTHeaders := [("X-Foo", "bar")] }
        { QueryType := "rest", RESTEndpoint := "e" }).headers = []
    ∧ headerGet (restExecuteQueryRequest
        { RESTURL := "http://h", RESTHeaders := [("X-Foo", "bar")] }
        { QueryType := "rest", RESTEndpoint := "e" }).headers "X-Foo" = "" := by
  refine ⟨by decide, by decide, by decide⟩

/-- Claim C8 (amended): the handler builds the outgoing request from the
PER-QUERY header mapping only — the data-source-level `Config.RESTHeaders`
is not consulted (the request is identical when it is emptied), while
every per-query header whose canonical key is distinct from the others
and from the auth and default Content-Type keys is attached verbatim. -/
theorem C8_per_query_headers_only (config : DataSourceConfig)
    (queryModel : QueryModel) :
    restExecuteQueryRequest config queryModel
      = restExecuteQueryRequest { config with RESTHeaders := [] } queryModel
    ∧ ((queryModel.RESTHeaders.map (fun kv => canonicalKey kv.1)).Nodup →
        ∀ k v, (k, v) ∈ queryModel.RESTHeaders →
          canonicalKey k ≠ canonicalKey "Authorization" →
          canonicalKey k ≠ canonicalKey "X-API-Key" →
          canonicalKey k ≠ canonicalKey "Content-Type" →
          headerGet (restExecuteQueryRequest config queryModel).headers k = v) := by
  constructor
  · cases config
    rfl
  · intro hnd k v hmem hk1 hk2 hk3
    simp only [restExecuteQueryRequest]
    rw [headerGet_addAuth_other config _ k hk1 hk2]
    split
    all_goals split
    all_goals
      first
      | (rw [headerGet_headerSet, if_neg hk3]
         exact headerGet_foldl_headerSet_mem queryModel.RESTHeaders [] k v hnd hmem)
      | exact headerGet_foldl_headerSet_mem queryModel.RESTHeaders [] k v hnd hmem

/-- Concrete instantiation of C8 (amended): a per-query header is
attached even though the config-level mapping is ignored. -/
theorem C8_witness :
    headerGet (restExecuteQueryRequest
      { RESTURL := "http://h", RESTHeaders := [("X-Foo", "bar")] }
      { QueryType := "rest", RESTEndpoint := "e"
        RESTHeaders := [("X-Trace", "1")] }).headers "X-Trace" = "1" :=
  (C8_per_query_headers_only
    { RESTURL := "http://h", RESTHeaders := [("X-Foo", "bar")] }
    { QueryType := "rest", RESTEndpoint := "e"
      RESTHeaders := [("X-Trace", "1")] }).2
    (by decide) "X-Trace" "1" (by decide) (by decide) (by decide) (by decide)

/-- Claim C6: in the log-query conversion, an entry array element with
fewer than two items is skipped without failing the query, an entry whose
timestamp fails to parse is skipped without failing the query, and a
stream with zero valid entries after skipping contributes no Frame at all
(the conversion is total: it equals, stream by stream, the frame built
from exactly the valid entries, with streams of no valid entries
omitted). -/
theorem C6_log_entries_skipped_not_fatal (resp : LokiQueryResponse) :
    lokiConvertToDataFrames resp
      = resp.Result.filterMap (fun r =>
          match r.Values.filterMap lokiEntry? with
          | [] => none
          | ps => some (lokiFrame r.Stream (ps.map Prod.fst) (ps.map Prod.snd)))
    ∧ ∀ val, (val.length < 2 ∨ goParseInt64? (val.getD 0 "") = none) →
        lokiEntry? val = none := by
  constructor
  · have := lokiConvertLoop_eq resp.Result []
    simpa [lokiConvertToDataFrames, lokiStreamFold] using this
  · intro val hval
    rcases hval with hshort | hparse
    · simp [lokiEntry?, hshort]
    · by_cases hshort : val.length < 2
      · simp [lokiEntry?, hshort]
      · have hparse' : goParseInt64? (val[0]?.getD "") = none := by
          simpa [List.getD] using hparse
        simp [lokiEntry?, hshort, hparse']

/-- Claim C4: a metrics query with differing range start and end issues a
range query carrying start, end, and a step defaulting to 15 seconds when
the query supplies none; with start equal to end it issues an instant
query whose single time parameter is the range end. -/
theorem C4_range_vs_instant (config : DataSourceConfig)
    (query : DataQuery) (queryModel : QueryModel) :
    (query.TimeRange.From ≠ query.TimeRange.To →
      (promExecuteQueryRequest config query queryModel).url
          = config.PrometheusURL ++ "/api/v1/query_range"
      ∧ (promExecuteQueryRequest config query queryModel).params.lookup "start"
          = some (toString (goUnix query.TimeRange.From))
      ∧ (promExecuteQueryRequest config query queryModel).params.lookup "end"
          = some (toString (goUnix query.TimeRange.To))
      ∧ (promExecuteQueryRequest config query queryModel).params.lookup "step"
          = some (toString (durSecondsTrunc
              (if query.Interval = 0 then 15 * 1000000000 else query.Interval)) ++ "s")
      ∧ (query.Interval = 0 →
          (promExecuteQueryRequest config query queryModel).params.lookup "step"
            = some "15s")
      ∧ (promExecuteQueryRequest config query queryModel).params.lookup "time" = none)
    ∧ (query.TimeRange.From = query.TimeRange.To →
      (promExecuteQueryRequest config query queryModel).url
          = config.PrometheusURL ++ "/api/v1/query"
      ∧ (promExecuteQueryRequest config query queryModel).params.lookup "time"
          = some (toString (goUnix query.TimeRange.To))
      ∧ (promExecuteQueryRequest config query queryModel).params.lookup "start" = none
      ∧ (promExecuteQueryRequest config query queryModel).params.lookup "end" = none
      ∧ (promExecuteQueryRequest config query queryModel).params.lookup "step" = none) := by
  constructor
  · intro hne
    have hb : (decide (query.TimeRange.From ≠ query.TimeRange.To)) = true := by
      simp [hne]
    refine ⟨?_, ?_, ?_, ?_, ?_, ?_⟩
    · simp [promExecuteQueryRequest, hb]
    · simp [promExecuteQueryRequest, hb, mapSet, List.lookup]
    · simp [promExecuteQueryRequest, hb, mapSet, List.lookup]
    · simp [promExecuteQueryRequest, hb, mapSet, List.lookup]
    · intro h0
      simp [promExecuteQueryRequest, hb, mapSet, List.lookup, h0, durSecondsTrunc]
      decide
    · simp [promExecuteQueryRequest, hb, mapSet, List.lookup]
  · intro heq
    have hb : (decide (query.TimeRange.From ≠ query.TimeRange.To)) = false := by
      simp [heq]
    refine ⟨?_, ?_, ?_, ?_, ?_⟩ <;>
      simp [promExecuteQueryRequest, hb, mapSet, List.lookup]

theorem discoverFields_length :
    ∀ (o : List (String × Jvalue)), (discoverFields o).length = numCount o
  | [] => rfl
  | kv :: rest => by
    cases ht : isTimeKey kv.1 <;> cases hn : isNumeric kv.2 <;>
      simp [discoverFields, numCount, ht, hn, discoverFields_length rest]

theorem discoverFields_empty :
    ∀ (o : List (String × Jvalue)), ∀ f ∈ discoverFields o, f.2 = []
  | kv :: rest, f, hf => by
    cases ht : isTimeKey kv.1 <;> cases hn : isNumeric kv.2 <;>
      simp only [discoverFields, ht, hn, if_true, if_false,
        Bool.false_eq_true, Bool.true_eq_false, ite_true, ite_false] at hf
    case false.true =>
      rcases List.mem_cons.mp hf with he | hm
      · rw [he]
      · exact discoverFields_empty rest f hm
    all_goals exact discoverFields_empty rest f hf

theorem appendAt_at :
    ∀ (pre : List NumField) (f : NumField) (suf : List NumField) (x : Rat),
      appendAt (pre ++ f :: suf) pre.length x = pre ++ (f.1, f.2 ++ [x]) :: suf
  | [], f, suf, x => rfl
  | p :: pre', f, suf, x => by
    show appendAt (p :: (pre' ++ f :: suf)) (pre'.length + 1) x
        = p :: (pre' ++ (f.1, f.2 ++ [x]) :: suf)
    rw [show appendAt (p :: (pre' ++ f :: suf)) (pre'.length + 1) x
        = p :: appendAt (pre' ++ f :: suf) pre'.length x from rfl]
    rw [appendAt_at pre' f suf x]

theorem fillEntries_key :
    ∀ (obj : List (String × Jvalue)) (pre suf : List NumField) (n : Nat),
      (∀ f ∈ pre, f.2.length = n + 1) →
      (∀ f ∈ suf, f.2.length = n) →
      numCount obj = suf.length →
      (∀ f ∈ fillEntries pre.length (pre ++ suf) obj, f.2.length = n + 1)
      ∧ (fillEntries pre.length (pre ++ suf) obj).length = pre.length + suf.length
  | [], pre, suf, n, hpre, hsuf, hcount => by
    have hsuf0 : suf = [] := List.length_eq_zero.mp (by simpa [numCount] using hcount.symm)
    subst hsuf0
    simpa [fillEntries] using hpre
  | kv :: rest, pre, suf, n, hpre, hsuf, hcount => by
    cases ht : isTimeKey kv.1
    · cases hn : isNumeric kv.2
      · simp only [fillEntries, ht, Bool.false_eq_true, if_false, hn]
        have hcount' : numCount rest = suf.length := by
          simpa [numCount, ht, hn] using hcount
        exact fillEntries_key rest pre suf n hpre hsuf hcount'
      · have hcount' : numCount rest + 1 = suf.length := by
          simpa [numCount, ht, hn] using hcount
        cases suf with
        | nil => simp at hcount'
        | cons s0 suf' =>
          have hj : pre.length < (pre ++ s0 :: suf').length := by
            simp
          simp only [fillEntries, ht, Bool.false_eq_true, if_false, hn, if_true, hj]
          rw [appendAt_at pre s0 suf' (toFloat64 kv.2)]
          have hre : pre ++ (s0.1, s0.2 ++ [toFloat64 kv.2]) :: suf'
              = (pre ++ [(s0.1, s0.2 ++ [toFloat64 kv.2])]) ++ suf' := by
            simp
          have hidx : pre.length + 1 = (pre ++ [(s0.1, s0.2 ++ [toFloat64 kv.2])]).length := by
            simp
          rw [hre, hidx]
          have hmain := fillEntries_key rest (pre ++ [(s0.1, s0.2 ++ [toFloat64 kv.2])]) suf' n
            (by
              intro f hf
              rcases List.mem_append.mp hf with hm | hm
              · exact hpre f hm
              · have hs0 : s0.2.length = n := hsuf s0 (List.mem_cons_self s0 suf')
                simp only [List.mem_singleton] at hm
                subst hm
                simp [hs0])
            (fun f hf => hsuf f (List.mem_cons_of_mem s0 hf))
            (by
              simp only [List.length_cons] at hcount'
              omega)
          refine ⟨hmain.1, ?_⟩
          rw [hmain.2]
          simp
          omega
    · simp only [fillEntries, ht, if_true]
      have hcount' : numCount rest = suf.length := by
        simpa [numCount, ht] using hcount
      exact fillEntries_key rest pre suf n hpre hsuf hcount'

theorem arrayRowStep_inv (now : GoTime) (query : DataQuery) (c : Nat)
    (st : ArrState) (o : List (String × Jvalue)) (hc : numCount o = c)
    (hinv : (st.valueFields = [] ∧ st.times.length = 0)
        ∨ (st.valueFields.length = c ∧ ∀ f ∈ st.valueFields, f.2.length = st.times.length)) :
    (arrayRowStep now query st (.jobj o)).times.length = st.times.length + 1
    ∧ (arrayRowStep now query st (.jobj o)).valueFields.length = c
    ∧ ∀ f ∈ (arrayRowStep now query st (.jobj o)).valueFields,
        f.2.length = st.times.length + 1 := by
  refine ⟨by simp [arrayRowStep], ?_⟩
  simp only [arrayRowStep]
  rcases hinv with ⟨hempty, hk0⟩ | ⟨hlen, hall⟩
  · have hisE : st.valueFields.isEmpty = true := by simp [hempty]
    simp only [hisE, if_true]
    have hkey := fillEntries_key o [] (discoverFields o) st.times.length
      (by intro f hf; cases hf)
      (by
        intro f hf
        rw [discoverFields_empty o f hf]
        simp [hk0])
      (by rw [discoverFields_length])
    simp only [List.length_nil, List.nil_append] at hkey
    refine ⟨?_, hkey.1⟩
    rw [hkey.2, discoverFields_length]
    omega
  · by_cases hemp : st.valueFields = []
    · have hc0 : c = 0 := by
        rw [hemp] at hlen
        simpa using hlen.symm
      have hisE : st.valueFields.isEmpty = true := by simp [hemp]
      simp only [hisE, if_true]
      have hd0 : discoverFields o = [] := by
        have := discoverFields_length o
        rw [hc, hc0] at this
        exact List.length_eq_zero.mp this
      have hkey := fillEntries_key o [] [] st.times.length
        (by intro f hf; cases hf)
        (by intro f hf; cases hf)
        (by simpa [hc0] using hc)
      simp only [List.length_nil, List.nil_append] at hkey
      rw [hd0]
      exact ⟨by simp [hkey.2, hc0], hkey.1⟩
    · have hisE : st.valueFields.isEmpty = false := by
        simpa [List.isEmpty_iff] using hemp
      simp only [hisE, Bool.false_eq_true, if_false]
      have hkey := fillEntries_key o [] st.valueFields st.times.length
        (by intro f hf; cases hf)
        hall
        (by rw [hc, hlen])
      simp only [List.length_nil, List.nil_append] at hkey
      exact ⟨by rw [hkey.2]; omega, hkey.1⟩

theorem arrayFold_inv (now : GoTime) (query : DataQuery) (c : Nat) :
    ∀ (arr : List Jvalue) (st : ArrState),
      (∀ a ∈ arr, ∃ o, a = Jvalue.jobj o ∧ numCount o = c) →
      ((st.valueFields = [] ∧ st.times.length = 0)
        ∨ (st.valueFields.length = c ∧ ∀ f ∈ st.valueFields, f.2.length = st.times.length)) →
      (arr.foldl (arrayRowStep now query) st).times.length = st.times.length + arr.length
      ∧ ((arr.foldl (arrayRowStep now query) st).valueFields = []
            ∧ (arr.foldl (arrayRowStep now query) st).times.length = 0
        ∨ ((arr.foldl (arrayRowStep now query) st).valueFields.length = c
            ∧ ∀ f ∈ (arr.foldl (arrayRowStep now query) st).valueFields,
                f.2.length = (arr.foldl (arrayRowStep now query) st).times.length))
  | [], st, _, hinv => ⟨by simp, by simpa using hinv⟩
  | a :: rest, st, hrows, hinv => by
    obtain ⟨o, ha, hc⟩ := hrows a (List.mem_cons_self a rest)
    subst ha
    have hstep := arrayRowStep_inv now query c st o hc hinv
    have hrec := arrayFold_inv now query c rest (arrayRowStep now query st (.jobj o))
      (fun a' ha' => hrows a' (List.mem_cons_of_mem _ ha'))
      (Or.inr ⟨hstep.2.1, by rw [hstep.1]; exact hstep.2.2⟩)
    rw [List.foldl_cons]
    refine ⟨?_, hrec.2⟩
    rw [hrec.1, hstep.1]
    simp
    omega

theorem arrayFold_hasTF (now : GoTime) (query : DataQuery) :
    ∀ (arr : List Jvalue) (st : ArrState),
      (arr.foldl (arrayRowStep now query) st).hasTimeField
        = (st.hasTimeField || arr.any rowHasTimeKey)
  | [], st => by simp
  | a :: rest, st => by
    rw [List.foldl_cons, arrayFold_hasTF now query rest]
    cases a <;> simp [arrayRowStep, rowHasTimeKey, Bool.or_assoc]

/-- Counterexample to claim C1 as stated: an array of objects where the
second row has the timestamp key but fewer numeric keys than the first.
The Frame is classified time-series, yet its timestamp Field has 2 rows
while the numeric Field `a` has only 1 — the positional fill loop
silently leaves fields short. -/
theorem C1_counterexample :
    (arrayToDataFrame 0
      { RefID := "A", TimeRange := { From := 0, To := 0 } }
      [ .jobj [("time", .jnum 1), ("a", .jnum 2)]
      , .jobj [("time", .jnum 3)] ]).metaType = some .timeSeriesMany
    ∧ ((arrayToDataFrame 0
      { RefID := "A", TimeRange := { From := 0, To := 0 } }
      [ .jobj [("time", .jnum 1), ("a", .jnum 2)]
      , .jobj [("time", .jnum 3)] ]).fields.map Field.len) = [2, 1]
    ∧ ((arrayToDataFrame 0
      { RefID := "A", TimeRange := { From := 0, To := 0 } }
      [ .jobj [("time", .jnum 1), ("a", .jnum 2)]
      , .jobj [("time", .jnum 3)] ]).fields.map Field.len).getD 0 0
      ≠ ((arrayToDataFrame 0
      { RefID := "A", TimeRange := { From := 0, To := 0 } }
      [ .jobj [("time", .jnum 1), ("a", .jnum 2)]
      , .jobj [("time", .jnum 3)] ]).fields.map Field.len).getD 1 0 := by
  refine ⟨by decide, by decide, by decide⟩

/-- Claim C1 (amended): for a REST array-of-objects response in which at
least one row carries a recognized timestamp key, the Frame is classified
time-series; and PROVIDED every row carries the same number of numeric
non-timestamp values, the timestamp Field has the same length as every
numeric Field (namely the array length). -/
theorem C1_time_series_equal_lengths (now : GoTime) (query : DataQuery)
    (arr : List Jvalue)
    (hobj : ∀ a ∈ arr, isObjRow a = true)
    (hts : arr.any rowHasTimeKey = true) :
    (arrayToDataFrame now query arr).metaType = some .timeSeriesMany
    ∧ ∀ c : Nat, (∀ a ∈ arr, rowNumCount a = c) →
        (arrayToDataFrame now query arr).fields.map Field.len
          = arr.length :: List.replicate c arr.length := by
  cases arr with
  | nil => cases hts
  | cons first rest =>
    obtain ⟨o, hfirst⟩ : ∃ o, first = Jvalue.jobj o := by
      have := hobj first (List.mem_cons_self first rest)
      cases first <;> simp [isObjRow] at this
      exact ⟨_, rfl⟩
    subst hfirst
    have hTF := arrayFold_hasTF now query (Jvalue.jobj o :: rest) {}
    rw [hts] at hTF
    simp only [Bool.false_or] at hTF
    constructor
    · simp only [arrayToDataFrame, hTF, if_true]
    · intro c hcnt
      have hrows : ∀ a ∈ Jvalue.jobj o :: rest,
          ∃ o', a = Jvalue.jobj o' ∧ numCount o' = c := by
        intro a ha
        have h1 := hobj a ha
        have h2 := hcnt a ha
        cases a <;> simp [isObjRow] at h1
        exact ⟨_, rfl, by simpa [rowNumCount] using h2⟩
      have hinv := arrayFold_inv now query c (Jvalue.jobj o :: rest) {} hrows
        (Or.inl ⟨rfl, rfl⟩)
      have htimes : ((Jvalue.jobj o :: rest).foldl (arrayRowStep now query) {}).times.length
          = (Jvalue.jobj o :: rest).length := by
        have := hinv.1
        simpa using this
      simp only [arrayToDataFrame, hTF, if_true]
      rcases hinv.2 with ⟨_, hzero⟩ | ⟨hflen, hfall⟩
      · rw [htimes] at hzero
        simp at hzero
      · simp only [List.map_cons, Field.len]
        rw [htimes]
        refine congrArg _ ?_
        rw [List.map_map]
        apply List.eq_replicate_iff.mpr
        refine ⟨by simpa using hflen, ?_⟩
        intro x hx
        simp only [List.mem_map, Function.comp] at hx
        obtain ⟨f, hf, hfx⟩ := hx
        have := hfall f hf
        rw [htimes] at this
        rw [← hfx]
        simpa [numFieldToField, Field.len] using this

/-- Concrete instantiations of C1 (amended): two uniform object rows
(each with a timestamp key and one numeric key) get classification and
equal field lengths; the classification half also holds at a NON-uniform
array, with no equal-count hypothesis. -/
theorem C1_witness :
    ((arrayToDataFrame 0
      { RefID := "A", TimeRange := { From := 0, To := 0 } }
      [ .jobj [("time", .jnum 1), ("a", .jnum 2)]
      , .jobj [("time", .jnum 3), ("b", .jnum 4)] ]).metaType
        = some .timeSeriesMany
    ∧ (arrayToDataFrame 0
      { RefID := "A", TimeRange := { From := 0, To := 0 } }
      [ .jobj [("time", .jnum 1), ("a", .jnum 2)]
      , .jobj [("time", .jnum 3), ("b", .jnum 4)] ]).fields.map Field.len
        = 2 :: List.replicate 1 2)
    ∧ (arrayToDataFrame 0
      { RefID := "A", TimeRange := { From := 0, To := 0 } }
      [ .jobj [("time", .jnum 1), ("a", .jnum 2)]
      , .jobj [("time", .jnum 3)] ]).metaType
        = some .timeSeriesMany :=
  ⟨⟨(C1_time_series_equal_lengths 0
      { RefID := "A", TimeRange := { From := 0, To := 0 } }
      [ .jobj [("time", .jnum 1), ("a", .jnum 2)]
      , .jobj [("time", .jnum 3), ("b", .jnum 4)] ]
      (by decide) (by decide)).1,
    (C1_time_series_equal_lengths 0
      { RefID := "A", TimeRange := { From := 0, To := 0 } }
      [ .jobj [("time", .jnum 1), ("a", .jnum 2)]
      , .jobj [("time", .jnum 3), ("b", .jnum 4)] ]
      (by decide) (by decide)).2 1 (by decide)⟩,
   (C1_time_series_equal_lengths 0
      { RefID := "A", TimeRange := { From := 0, To := 0 } }
      [ .jobj [("time", .jnum 1), ("a", .jnum 2)]
      , .jobj [("time", .jnum 3)] ]
      (by decide) (by decide)).1⟩

/-- Concrete instantiations of C4: a one-hour range with no interval, and
an instant query at the range end. -/
theorem C4_witness :
    ((promExecuteQueryRequest { PrometheusURL := "http://p" }
        { RefID := "A", TimeRange := { From := timeUnix 0 0, To := timeUnix 3600 0 } }
        { QueryType := "prometheus", PromQL := "up" }).url
      = "http://p" ++ "/api/v1/query_range"
    ∧ (promExecuteQueryRequest { PrometheusURL := "http://p" }
        { RefID := "A", TimeRange := { From := timeUnix 0 0, To := timeUnix 3600 0 } }
        { QueryType := "prometheus", PromQL := "up" }).params.lookup "step"
      = some "15s")
    ∧ ((promExecuteQueryRequest { PrometheusURL := "http://p" }
        { RefID := "A", TimeRange := { From := timeUnix 9 0, To := timeUnix 9 0 } }
        { QueryType := "prometheus", PromQL := "up" }).url
      = "http://p" ++ "/api/v1/query"
    ∧ (promExecuteQueryRequest { PrometheusURL := "http://p" }
        { RefID := "A", TimeRange := { From := timeUnix 9 0, To := timeUnix 9 0 } }
        { QueryType := "prometheus", PromQL := "up" }).params.lookup "time"
      = some (toString (goUnix (timeUnix 9 0)))) :=
  ⟨⟨((C4_range_vs_instant { PrometheusURL := "http://p" }
        { RefID := "A", TimeRange := { From := timeUnix 0 0, To := timeUnix 3600 0 } }
        { QueryType := "prometheus", PromQL := "up" }).1 (by decide)).1,
    ((C4_range_vs_instant { PrometheusURL := "http://p" }
        { RefID := "A", TimeRange := { From := timeUnix 0 0, To := timeUnix 3600 0 } }
        { QueryType := "prometheus", PromQL := "up" }).1 (by decide)).2.2.2.2.1 rfl⟩,
   ⟨((C4_range_vs_instant { PrometheusURL := "http://p" }
        { RefID := "A", TimeRange := { From := timeUnix 9 0, To := timeUnix 9 0 } }
        { QueryType := "prometheus", PromQL := "up" }).2 (by decide)).1,
    ((C4_range_vs_instant { PrometheusURL := "http://p" }
        { RefID := "A", TimeRange := { From := timeUnix 9 0, To := timeUnix 9 0 } }
        { QueryType := "prometheus", PromQL := "up" }).2 (by decide)).2.1⟩⟩

end GrafanaConnect
